import Mathlib

/-!
# Startup wiring of the registration authority (`cmd/boulder-ra/main.go`)

A shallow embedding of `main`: the configuration structure, the calls `main`
makes to the packages it imports (taken as parameters of a `World`), the order
of those calls and the fail-fast exits. Running `main` on a world yields the
trace of calls it made and how the process ended.
-/

namespace BoulderRA

/-! ## Values of the imported packages -/

/-- Go `error` value that is not nil, carried as its text. -/
abbrev Err := String

/-- Result of `time.ParseDuration`, in nanoseconds. -/
abbrev Duration := Int

/-- `cmd.AMQPConfig`, carried as an uninterpreted value. -/
structure AMQPConfig where
  raw : String
  deriving DecidableEq, Repr

/-- `cmd.GRPCClientConfig`, carried as an uninterpreted value. -/
structure GRPCClientConfig where
  raw : String
  deriving DecidableEq, Repr

/-- `cmd.AllowedSigningAlgos`, carried as an uninterpreted value. -/
structure AllowedSigningAlgos where
  raw : String
  deriving DecidableEq, Repr

/-- `cmd.PAConfig`: only the field `Challenges` is read by `main`. -/
structure PAConfig where
  Challenges : List (String × Bool)
  deriving DecidableEq, Repr

/-- `cmd.StatsdConfig`, carried as an uninterpreted value. -/
structure StatsdConfig where
  raw : String
  deriving DecidableEq, Repr

/-- `cmd.SyslogConfig`, carried as an uninterpreted value. -/
structure SyslogConfig where
  raw : String
  deriving DecidableEq, Repr

/-- Object handles returned by the constructors of the imported packages. -/
structure Stats where
  id : Nat
  deriving DecidableEq, Repr

structure Logger where
  id : Nat
  deriving DecidableEq, Repr

structure Clock where
  id : Nat
  deriving DecidableEq, Repr

structure KeyPolicy where
  id : Nat
  deriving DecidableEq, Repr

structure Scope where
  id : Nat
  deriving DecidableEq, Repr

structure ClientConn where
  id : Nat
  deriving DecidableEq, Repr

structure PolicyAuthority where
  id : Nat
  deriving DecidableEq, Repr

structure ValidationAuthority where
  id : Nat
  deriving DecidableEq, Repr

structure CertificateAuthority where
  id : Nat
  deriving DecidableEq, Repr

structure StorageAuthority where
  id : Nat
  deriving DecidableEq, Repr

structure DNSResolver where
  id : Nat
  deriving DecidableEq, Repr

structure AmqpRPCServer where
  id : Nat
  deriving DecidableEq, Repr

/-! ## The configuration structure (`type config struct`) -/

/-- The `RA` block of `config`; the embedded `cmd.ServiceConfig` contributes
`DebugAddr` and `AMQP`, the embedded `cmd.HostnamePolicyConfig` contributes
`HostnamePolicyFile`. `VAService` is a pointer: `none` is nil. -/
structure RAConfig where
  DebugAddr : String
  AMQP : AMQPConfig
  HostnamePolicyFile : String
  RateLimitPoliciesFilename : String
  MaxConcurrentRPCServerRequests : Int
  MaxContactsPerRegistration : Int
  UseIsSafeDomain : Bool
  DNSTries : Int
  VAService : Option GRPCClientConfig
  MaxNames : Int
  DoNotForceCN : Bool
  ReuseValidAuthz : Bool
  deriving DecidableEq, Repr

/-- The `Common` block of `config`. -/
structure CommonConfig where
  DNSResolver : String
  DNSTimeout : String
  DNSAllowLoopbackAddresses : Bool
  deriving DecidableEq, Repr

/-- The structure `config`. -/
structure Config where
  RA : RAConfig
  AllowedSigningAlgos : Option AllowedSigningAlgos
  PA : PAConfig
  StatsdConfig : StatsdConfig
  SyslogConfig : SyslogConfig
  Common : CommonConfig
  deriving DecidableEq, Repr

/-- The value `rai` (`*ra.RegistrationAuthorityImpl`): the object the
constructor returned and the five fields `main` assigns afterwards. -/
structure RegistrationAuthorityImpl where
  id : Nat
  PA : Option PolicyAuthority
  DNSResolver : Option DNSResolver
  VA : Option ValidationAuthority
  CA : Option CertificateAuthority
  SA : Option StorageAuthority
  deriving DecidableEq, Repr

/-! ## The calls `main` makes -/

/-- Everything `main` receives from outside: the `-config` flag and the
behaviour of each imported function it calls. A Go `error` result is
`Option Err` (`none` is nil); a `(value, error)` result is `Except Err value`.
The constant `nil` third argument of `bdns.NewDNSResolverImpl` is left out;
`ra.NewRegistrationAuthorityImpl` yields the identity of the object it
returns. -/
structure World where
  configFile : String
  readJSONFile : String → Except Err Config
  statsAndLogging : StatsdConfig → SyslogConfig → Stats × Logger
  checkChallenges : PAConfig → Option Err
  policyNew : List (String × Bool) → Except Err PolicyAuthority
  setHostnamePolicyFile : PolicyAuthority → String → Option Err
  clientSetup : GRPCClientConfig → Except Err ClientConn
  newValidationAuthorityGRPCClient : ClientConn → ValidationAuthority
  newValidationAuthorityClient : String → AMQPConfig → Stats → Except Err ValidationAuthority
  newCertificateAuthorityClient : String → AMQPConfig → Stats → Except Err CertificateAuthority
  newStorageAuthorityClient : String → AMQPConfig → Stats → Except Err StorageAuthority
  clockDefault : Clock
  keyPolicy : Option AllowedSigningAlgos → KeyPolicy
  newRegistrationAuthorityImpl :
    Clock → Logger → Stats → Int → KeyPolicy → Int → Bool → Bool → Nat
  setRateLimitPoliciesFile : Nat → String → Option Err
  parseDuration : String → Except Err Duration
  newStatsdScope : Stats → List String → Scope
  newDNSResolverImpl : Duration → List String → Scope → Clock → Int → DNSResolver
  newTestDNSResolverImpl : Duration → List String → Scope → Clock → Int → DNSResolver
  newAmqpRPCServer : AMQPConfig → Int → Stats → Logger → Except Err AmqpRPCServer
  newRegistrationAuthorityServer : AmqpRPCServer → RegistrationAuthorityImpl → Logger → Option Err
  start : AmqpRPCServer → AMQPConfig → Option Err

/-- The five fields of `rai` that `main` assigns. -/
inductive Field where
  | PA | DNSResolver | VA | CA | SA
  deriving DecidableEq, Repr

/-- One entry of the trace of `main`: a call to an imported function with the
arguments that matter and, for a fallible call, whether it returned without
error (`ok`); the evaluation of the test on `HostnamePolicyFile`; an
assignment to a field of `rai`; the fatal exit of `cmd.FailOnError`. -/
inductive Event where
  | usage
  | readJSONFile (path : String) (ok : Bool)
  | debugServer (addr : String)
  | statsAndLogging
  | checkChallenges (ok : Bool)
  | policyNew (ok : Bool)
  | hostnamePolicyFileGiven (ok : Bool)
  | setHostnamePolicyFile (pa : PolicyAuthority) (path : String) (ok : Bool)
  | profileCmd
  | clientSetup (cfg : GRPCClientConfig) (ok : Bool)
  | newValidationAuthorityGRPCClient (conn : ClientConn)
  | newValidationAuthorityClient (amqp : AMQPConfig) (ok : Bool)
  | newCertificateAuthorityClient (amqp : AMQPConfig) (ok : Bool)
  | newStorageAuthorityClient (amqp : AMQPConfig) (ok : Bool)
  | newRegistrationAuthorityImpl (id : Nat)
  | setRateLimitPoliciesFile (file : String) (ok : Bool)
  | assign (f : Field)
  | parseDuration (s : String) (ok : Bool)
  | newStatsdScope
  | newDNSResolverImpl (timeout : Duration) (servers : List String) (tries : Int)
  | newTestDNSResolverImpl (timeout : Duration) (servers : List String) (tries : Int)
  | newAmqpRPCServer (amqp : AMQPConfig) (maxConcurrent : Int) (ok : Bool)
  | newRegistrationAuthorityServer (ras : AmqpRPCServer) (rai : RegistrationAuthorityImpl)
      (ok : Bool)
  | start (ras : AmqpRPCServer) (ok : Bool)
  | fatal (msg : String) (err : Err)
  deriving DecidableEq, Repr

/-- How the process ended: `os.Exit(1)` after `flag.Usage()`, the exit of
`cmd.FailOnError`, or `main` returning after `ras.Start` gave no error. -/
inductive Outcome where
  | usageExit
  | failed (msg : String) (err : Err)
  | served
  deriving DecidableEq, Repr

/-- A run of `main`: the calls made, in order, and how the process ended. -/
structure Run where
  trace : List Event
  outcome : Outcome
  deriving DecidableEq, Repr

/-- A computation of `main`: it extends the trace and either yields a value
or ends the process. -/
def Startup (α : Type) : Type := List Event → List Event × Except Outcome α

/-- Sequencing: a computation that ended the process is not continued. -/
def Startup.bind {α β : Type} (m : Startup α) (f : α → Startup β) : Startup β :=
  fun t => match m t with
    | (t1, Except.ok a) => f a t1
    | (t1, Except.error o) => (t1, Except.error o)

instance : Monad Startup where
  pure a := fun t => (t, Except.ok a)
  bind := Startup.bind

/-- Record one call in the trace. -/
def emit (e : Event) : Startup Unit := fun t => (t ++ [e], Except.ok ())

/-- End the process with `o`. -/
def exitWith {α : Type} (o : Outcome) : Startup α := fun t => (t, Except.error o)

/-- Modelled from the spec: `cmd.FailOnError`, of package `cmd`, whose body is
not in `cmd/boulder-ra/main.go`; on a non-nil error it logs a fatal diagnostic
and terminates the process, on nil it returns. -/
def failOnError (err : Option Err) (msg : String) : Startup Unit :=
  match err with
  | none => pure ()
  | some e => do
    emit (Event.fatal msg e)
    exitWith (Outcome.failed msg e)

/-- The Go idiom `v, err := f(..); cmd.FailOnError(err, msg)`: continue with
`v` when `err` is nil. -/
def orFail {α : Type} (r : Except Err α) (msg : String) : Startup α :=
  match r with
  | Except.ok a => pure a
  | Except.error e => do
    emit (Event.fatal msg e)
    exitWith (Outcome.failed msg e)

/-- Whether a `(value, error)` result has a nil error. -/
def isOk {α : Type} (r : Except Err α) : Bool :=
  match r with
  | Except.ok _ => true
  | Except.error _ => false

/-- The constant `clientName`. -/
def clientName : String := "RA"

/-- The function `main`, statement by statement. The deferred
`logger.AuditPanic` and the version log line make no call that is recorded. -/
def mainM (w : World) : Startup Unit := do
  if w.configFile = "" then
    emit Event.usage
    exitWith Outcome.usageExit
  let r := w.readJSONFile w.configFile
  emit (Event.readJSONFile w.configFile (isOk r))
  let c ← orFail r "Reading JSON config file into config structure"
  emit (Event.debugServer c.RA.DebugAddr)
  let (stats, logger) := w.statsAndLogging c.StatsdConfig c.SyslogConfig
  emit Event.statsAndLogging
  let chk := w.checkChallenges c.PA
  emit (Event.checkChallenges chk.isNone)
  failOnError chk "Invalid PA configuration"
  let paR := w.policyNew c.PA.Challenges
  emit (Event.policyNew (isOk paR))
  let pa ← orFail paR "Couldn't create PA"
  emit (Event.hostnamePolicyFileGiven (c.RA.HostnamePolicyFile != ""))
  if c.RA.HostnamePolicyFile = "" then
    failOnError (some "HostnamePolicyFile must be provided.") ""
  let hp := w.setHostnamePolicyFile pa c.RA.HostnamePolicyFile
  emit (Event.setHostnamePolicyFile pa c.RA.HostnamePolicyFile hp.isNone)
  failOnError hp "Couldn't load hostname policy file"
  emit Event.profileCmd
  let amqpConf := c.RA.AMQP
  let vac ← match c.RA.VAService with
    | some vaService => do
      let connR := w.clientSetup vaService
      emit (Event.clientSetup vaService (isOk connR))
      let conn ← orFail connR "Unable to create VA client"
      emit (Event.newValidationAuthorityGRPCClient conn)
      pure (w.newValidationAuthorityGRPCClient conn)
    | none => do
      let vacR := w.newValidationAuthorityClient clientName amqpConf stats
      emit (Event.newValidationAuthorityClient amqpConf (isOk vacR))
      orFail vacR "Unable to create VA client"
  let cacR := w.newCertificateAuthorityClient clientName amqpConf stats
  emit (Event.newCertificateAuthorityClient amqpConf (isOk cacR))
  let cac ← orFail cacR "Unable to create CA client"
  let sacR := w.newStorageAuthorityClient clientName amqpConf stats
  emit (Event.newStorageAuthorityClient amqpConf (isOk sacR))
  let sac ← orFail sacR "Unable to create SA client"
  let raiId := w.newRegistrationAuthorityImpl w.clockDefault logger stats
    c.RA.MaxContactsPerRegistration (w.keyPolicy c.AllowedSigningAlgos) c.RA.MaxNames
    c.RA.DoNotForceCN c.RA.ReuseValidAuthz
  let mut rai : RegistrationAuthorityImpl :=
    { id := raiId, PA := none, DNSResolver := none, VA := none, CA := none, SA := none }
  emit (Event.newRegistrationAuthorityImpl raiId)
  let policyErr := w.setRateLimitPoliciesFile raiId c.RA.RateLimitPoliciesFilename
  emit (Event.setRateLimitPoliciesFile c.RA.RateLimitPoliciesFilename policyErr.isNone)
  failOnError policyErr "Couldn't load rate limit policies file"
  rai := { rai with PA := some pa }
  emit (Event.assign Field.PA)
  let toR := w.parseDuration c.Common.DNSTimeout
  emit (Event.parseDuration c.Common.DNSTimeout (isOk toR))
  let raDNSTimeout ← orFail toR "Couldn't parse RA DNS timeout"
  let scopedStats := w.newStatsdScope stats ["RA", "DNS"]
  emit Event.newStatsdScope
  let mut dnsTries := c.RA.DNSTries
  if dnsTries < 1 then
    dnsTries := 1
  if !c.Common.DNSAllowLoopbackAddresses then
    emit (Event.newDNSResolverImpl raDNSTimeout [c.Common.DNSResolver] dnsTries)
    rai := { rai with DNSResolver := some (w.newDNSResolverImpl raDNSTimeout
      [c.Common.DNSResolver] scopedStats w.clockDefault dnsTries) }
    emit (Event.assign Field.DNSResolver)
  else
    emit (Event.newTestDNSResolverImpl raDNSTimeout [c.Common.DNSResolver] dnsTries)
    rai := { rai with DNSResolver := some (w.newTestDNSResolverImpl raDNSTimeout
      [c.Common.DNSResolver] scopedStats w.clockDefault dnsTries) }
    emit (Event.assign Field.DNSResolver)
  rai := { rai with VA := some vac }
  emit (Event.assign Field.VA)
  rai := { rai with CA := some cac }
  emit (Event.assign Field.CA)
  rai := { rai with SA := some sac }
  emit (Event.assign Field.SA)
  let rasR := w.newAmqpRPCServer amqpConf c.RA.MaxConcurrentRPCServerRequests stats logger
  emit (Event.newAmqpRPCServer amqpConf c.RA.MaxConcurrentRPCServerRequests (isOk rasR))
  let ras ← orFail rasR "Unable to create RA RPC server"
  let regErr := w.newRegistrationAuthorityServer ras rai logger
  emit (Event.newRegistrationAuthorityServer ras rai regErr.isNone)
  failOnError regErr "Unable to setup RA RPC server"
  let startErr := w.start ras amqpConf
  emit (Event.start ras startErr.isNone)
  failOnError startErr "Unable to run RA RPC server"

/-- Run `main` from an empty trace. -/
def main (w : World) : Run :=
  match mainM w [] with
  | (t, Except.ok ()) => { trace := t, outcome := Outcome.served }
  | (t, Except.error o) => { trace := t, outcome := o }


/-! ## The paths through `main` -/

/-- The statistics sink `main` obtains from `cmd.StatsAndLogging`. -/
def statsOf (w : World) (c : Config) : Stats :=
  (w.statsAndLogging c.StatsdConfig c.SyslogConfig).1

/-- The logger `main` obtains from `cmd.StatsAndLogging`. -/
def loggerOf (w : World) (c : Config) : Logger :=
  (w.statsAndLogging c.StatsdConfig c.SyslogConfig).2

/-- The retry budget computed at lines 136-139. -/
def dnsTriesOf (c : Config) : Int :=
  if c.RA.DNSTries < 1 then 1 else c.RA.DNSTries

/-- The calls of the Validation client block (lines 104-111) and its result. -/
def vaStep (w : World) (c : Config) : List Event × Except Err ValidationAuthority :=
  match c.RA.VAService with
  | some vaService =>
    match w.clientSetup vaService with
    | Except.ok conn =>
      ([Event.clientSetup vaService true, Event.newValidationAuthorityGRPCClient conn],
        Except.ok (w.newValidationAuthorityGRPCClient conn))
    | Except.error e => ([Event.clientSetup vaService false], Except.error e)
  | none =>
    match w.newValidationAuthorityClient clientName c.RA.AMQP (statsOf w c) with
    | Except.ok vac => ([Event.newValidationAuthorityClient c.RA.AMQP true], Except.ok vac)
    | Except.error e => ([Event.newValidationAuthorityClient c.RA.AMQP false], Except.error e)

/-- The resolver constructor call of lines 140-155 and the resolver it yields. -/
def resolverStep (w : World) (c : Config) (timeout : Duration) : Event × DNSResolver :=
  if c.Common.DNSAllowLoopbackAddresses then
    (Event.newTestDNSResolverImpl timeout [c.Common.DNSResolver] (dnsTriesOf c),
      w.newTestDNSResolverImpl timeout [c.Common.DNSResolver]
        (w.newStatsdScope (statsOf w c) ["RA", "DNS"]) w.clockDefault (dnsTriesOf c))
  else
    (Event.newDNSResolverImpl timeout [c.Common.DNSResolver] (dnsTriesOf c),
      w.newDNSResolverImpl timeout [c.Common.DNSResolver]
        (w.newStatsdScope (statsOf w c) ["RA", "DNS"]) w.clockDefault (dnsTriesOf c))

/-- The object returned by `ra.NewRegistrationAuthorityImpl` at line 119. -/
def raiIdOf (w : World) (c : Config) : Nat :=
  w.newRegistrationAuthorityImpl w.clockDefault (loggerOf w c) (statsOf w c)
    c.RA.MaxContactsPerRegistration (w.keyPolicy c.AllowedSigningAlgos) c.RA.MaxNames
    c.RA.DoNotForceCN c.RA.ReuseValidAuthz

/-- The value of `rai` once all five fields are assigned (line 159). -/
def raiOf (w : World) (c : Config) (pa : PolicyAuthority) (vac : ValidationAuthority)
    (cac : CertificateAuthority) (sac : StorageAuthority) (res : DNSResolver) :
    RegistrationAuthorityImpl :=
  { id := raiIdOf w c, PA := some pa, DNSResolver := some res,
    VA := some vac, CA := some cac, SA := some sac }

/-- The configuration was read (line 80 passed). -/
def ConfigLoaded (w : World) (c : Config) : Prop :=
  w.configFile ≠ "" ∧ w.readJSONFile w.configFile = Except.ok c

/-- The policy engine exists and has its hostname policy (line 98 passed). -/
def PolicyReady (w : World) (c : Config) (pa : PolicyAuthority) : Prop :=
  ConfigLoaded w c ∧ w.checkChallenges c.PA = none ∧
  w.policyNew c.PA.Challenges = Except.ok pa ∧ c.RA.HostnamePolicyFile ≠ "" ∧
  w.setHostnamePolicyFile pa c.RA.HostnamePolicyFile = none

/-- The three peer clients exist (line 117 passed). -/
def PeersReady (w : World) (c : Config) (pa : PolicyAuthority) (va : List Event)
    (vac : ValidationAuthority) (cac : CertificateAuthority) (sac : StorageAuthority) : Prop :=
  PolicyReady w c pa ∧ vaStep w c = (va, Except.ok vac) ∧
  w.newCertificateAuthorityClient clientName c.RA.AMQP (statsOf w c) = Except.ok cac ∧
  w.newStorageAuthorityClient clientName c.RA.AMQP (statsOf w c) = Except.ok sac

/-- The handle `rai` has its five fields (line 159 passed). -/
def CoreAssembled (w : World) (c : Config) (pa : PolicyAuthority) (va : List Event)
    (vac : ValidationAuthority) (cac : CertificateAuthority) (sac : StorageAuthority)
    (timeout : Duration) (rs : Event × DNSResolver) : Prop :=
  PeersReady w c pa va vac cac sac ∧
  w.setRateLimitPoliciesFile (raiIdOf w c) c.RA.RateLimitPoliciesFilename = none ∧
  w.parseDuration c.Common.DNSTimeout = Except.ok timeout ∧
  resolverStep w c timeout = rs

/-- Trace up to line 86. -/
def evConfig (w : World) (c : Config) : List Event :=
  [Event.readJSONFile w.configFile true, Event.debugServer c.RA.DebugAddr,
    Event.statsAndLogging]

/-- Trace up to line 100. -/
def evPolicy (w : World) (c : Config) (pa : PolicyAuthority) : List Event :=
  evConfig w c ++ [Event.checkChallenges true, Event.policyNew true,
    Event.hostnamePolicyFileGiven true,
    Event.setHostnamePolicyFile pa c.RA.HostnamePolicyFile true, Event.profileCmd]

/-- Trace up to line 117. -/
def evPeers (w : World) (c : Config) (pa : PolicyAuthority) (va : List Event) : List Event :=
  evPolicy w c pa ++ va ++ [Event.newCertificateAuthorityClient c.RA.AMQP true,
    Event.newStorageAuthorityClient c.RA.AMQP true]

/-- Trace up to line 131. -/
def evCore (w : World) (c : Config) (pa : PolicyAuthority) (va : List Event) : List Event :=
  evPeers w c pa va ++ [Event.newRegistrationAuthorityImpl (raiIdOf w c),
    Event.setRateLimitPoliciesFile c.RA.RateLimitPoliciesFilename true,
    Event.assign Field.PA]

/-- Trace up to line 159. -/
def evAssembled (w : World) (c : Config) (pa : PolicyAuthority) (va : List Event)
    (resolverCall : Event) : List Event :=
  evCore w c pa va ++ [Event.parseDuration c.Common.DNSTimeout true, Event.newStatsdScope,
    resolverCall, Event.assign Field.DNSResolver, Event.assign Field.VA,
    Event.assign Field.CA, Event.assign Field.SA]

/-- The runs of `main`, one constructor per exit. -/
inductive Path (w : World) : Run → Prop where
  | usage : w.configFile = "" → Path w ⟨[Event.usage], Outcome.usageExit⟩
  | readFailed (e : Err) : w.configFile ≠ "" →
      w.readJSONFile w.configFile = Except.error e →
      Path w ⟨[Event.readJSONFile w.configFile false,
        Event.fatal "Reading JSON config file into config structure" e],
        Outcome.failed "Reading JSON config file into config structure" e⟩
  | challengesInvalid (c : Config) (e : Err) : ConfigLoaded w c →
      w.checkChallenges c.PA = some e →
      Path w ⟨evConfig w c ++ [Event.checkChallenges false,
        Event.fatal "Invalid PA configuration" e],
        Outcome.failed "Invalid PA configuration" e⟩
  | policyNewFailed (c : Config) (e : Err) : ConfigLoaded w c →
      w.checkChallenges c.PA = none → w.policyNew c.PA.Challenges = Except.error e →
      Path w ⟨evConfig w c ++ [Event.checkChallenges true, Event.policyNew false,
        Event.fatal "Couldn't create PA" e], Outcome.failed "Couldn't create PA" e⟩
  | hostnamePolicyMissing (c : Config) (pa : PolicyAuthority) : ConfigLoaded w c →
      w.checkChallenges c.PA = none → w.policyNew c.PA.Challenges = Except.ok pa →
      c.RA.HostnamePolicyFile = "" →
      Path w ⟨evConfig w c ++ [Event.checkChallenges true, Event.policyNew true,
        Event.hostnamePolicyFileGiven false,
        Event.fatal "" "HostnamePolicyFile must be provided."],
        Outcome.failed "" "HostnamePolicyFile must be provided."⟩
  | hostnamePolicyLoadFailed (c : Config) (pa : PolicyAuthority) (e : Err) :
      ConfigLoaded w c → w.checkChallenges c.PA = none →
      w.policyNew c.PA.Challenges = Except.ok pa → c.RA.HostnamePolicyFile ≠ "" →
      w.setHostnamePolicyFile pa c.RA.HostnamePolicyFile = some e →
      Path w ⟨evConfig w c ++ [Event.checkChallenges true, Event.policyNew true,
        Event.hostnamePolicyFileGiven true,
        Event.setHostnamePolicyFile pa c.RA.HostnamePolicyFile false,
        Event.fatal "Couldn't load hostname policy file" e],
        Outcome.failed "Couldn't load hostname policy file" e⟩
  | vaFailed (c : Config) (pa : PolicyAuthority) (va : List Event) (e : Err) :
      PolicyReady w c pa → vaStep w c = (va, Except.error e) →
      Path w ⟨evPolicy w c pa ++ va ++ [Event.fatal "Unable to create VA client" e],
        Outcome.failed "Unable to create VA client" e⟩
  | caFailed (c : Config) (pa : PolicyAuthority) (va : List Event)
      (vac : ValidationAuthority) (e : Err) :
      PolicyReady w c pa → vaStep w c = (va, Except.ok vac) →
      w.newCertificateAuthorityClient clientName c.RA.AMQP (statsOf w c) = Except.error e →
      Path w ⟨evPolicy w c pa ++ va ++ [Event.newCertificateAuthorityClient c.RA.AMQP false,
        Event.fatal "Unable to create CA client" e],
        Outcome.failed "Unable to create CA client" e⟩
  | saFailed (c : Config) (pa : PolicyAuthority) (va : List Event)
      (vac : ValidationAuthority) (cac : CertificateAuthority) (e : Err) :
      PolicyReady w c pa → vaStep w c = (va, Except.ok vac) →
      w.newCertificateAuthorityClient clientName c.RA.AMQP (statsOf w c) = Except.ok cac →
      w.newStorageAuthorityClient clientName c.RA.AMQP (statsOf w c) = Except.error e →
      Path w ⟨evPolicy w c pa ++ va ++ [Event.newCertificateAuthorityClient c.RA.AMQP true,
        Event.newStorageAuthorityClient c.RA.AMQP false,
        Event.fatal "Unable to create SA client" e],
        Outcome.failed "Unable to create SA client" e⟩
  | rateLimitFailed (c : Config) (pa : PolicyAuthority) (va : List Event)
      (vac : ValidationAuthority) (cac : CertificateAuthority) (sac : StorageAuthority)
      (e : Err) : PeersReady w c pa va vac cac sac →
      w.setRateLimitPoliciesFile (raiIdOf w c) c.RA.RateLimitPoliciesFilename = some e →
      Path w ⟨evPeers w c pa va ++ [Event.newRegistrationAuthorityImpl (raiIdOf w c),
        Event.setRateLimitPoliciesFile c.RA.RateLimitPoliciesFilename false,
        Event.fatal "Couldn't load rate limit policies file" e],
        Outcome.failed "Couldn't load rate limit policies file" e⟩
  | timeoutInvalid (c : Config) (pa : PolicyAuthority) (va : List Event)
      (vac : ValidationAuthority) (cac : CertificateAuthority) (sac : StorageAuthority)
      (e : Err) : PeersReady w c pa va vac cac sac →
      w.setRateLimitPoliciesFile (raiIdOf w c) c.RA.RateLimitPoliciesFilename = none →
      w.parseDuration c.Common.DNSTimeout = Except.error e →
      Path w ⟨evCore w c pa va ++ [Event.parseDuration c.Common.DNSTimeout false,
        Event.fatal "Couldn't parse RA DNS timeout" e],
        Outcome.failed "Couldn't parse RA DNS timeout" e⟩
  | rpcServerFailed (c : Config) (pa : PolicyAuthority) (va : List Event)
      (vac : ValidationAuthority) (cac : CertificateAuthority) (sac : StorageAuthority)
      (timeout : Duration) (rs : Event × DNSResolver) (e : Err) :
      CoreAssembled w c pa va vac cac sac timeout rs →
      w.newAmqpRPCServer c.RA.AMQP c.RA.MaxConcurrentRPCServerRequests (statsOf w c)
        (loggerOf w c) = Except.error e →
      Path w ⟨evAssembled w c pa va rs.1 ++
        [Event.newAmqpRPCServer c.RA.AMQP c.RA.MaxConcurrentRPCServerRequests false,
        Event.fatal "Unable to create RA RPC server" e],
        Outcome.failed "Unable to create RA RPC server" e⟩
  | registerFailed (c : Config) (pa : PolicyAuthority) (va : List Event)
      (vac : ValidationAuthority) (cac : CertificateAuthority) (sac : StorageAuthority)
      (timeout : Duration) (rs : Event × DNSResolver) (ras : AmqpRPCServer) (e : Err) :
      CoreAssembled w c pa va vac cac sac timeout rs →
      w.newAmqpRPCServer c.RA.AMQP c.RA.MaxConcurrentRPCServerRequests (statsOf w c)
        (loggerOf w c) = Except.ok ras →
      w.newRegistrationAuthorityServer ras (raiOf w c pa vac cac sac rs.2)
        (loggerOf w c) = some e →
      Path w ⟨evAssembled w c pa va rs.1 ++
        [Event.newAmqpRPCServer c.RA.AMQP c.RA.MaxConcurrentRPCServerRequests true,
        Event.newRegistrationAuthorityServer ras (raiOf w c pa vac cac sac rs.2) false,
        Event.fatal "Unable to setup RA RPC server" e],
        Outcome.failed "Unable to setup RA RPC server" e⟩
  | startFailed (c : Config) (pa : PolicyAuthority) (va : List Event)
      (vac : ValidationAuthority) (cac : CertificateAuthority) (sac : StorageAuthority)
      (timeout : Duration) (rs : Event × DNSResolver) (ras : AmqpRPCServer) (e : Err) :
      CoreAssembled w c pa va vac cac sac timeout rs →
      w.newAmqpRPCServer c.RA.AMQP c.RA.MaxConcurrentRPCServerRequests (statsOf w c)
        (loggerOf w c) = Except.ok ras →
      w.newRegistrationAuthorityServer ras (raiOf w c pa vac cac sac rs.2)
        (loggerOf w c) = none →
      w.start ras c.RA.AMQP = some e →
      Path w ⟨evAssembled w c pa va rs.1 ++
        [Event.newAmqpRPCServer c.RA.AMQP c.RA.MaxConcurrentRPCServerRequests true,
        Event.newRegistrationAuthorityServer ras (raiOf w c pa vac cac sac rs.2) true,
        Event.start ras false, Event.fatal "Unable to run RA RPC server" e],
        Outcome.failed "Unable to run RA RPC server" e⟩
  | served (c : Config) (pa : PolicyAuthority) (va : List Event)
      (vac : ValidationAuthority) (cac : CertificateAuthority) (sac : StorageAuthority)
      (timeout : Duration) (rs : Event × DNSResolver) (ras : AmqpRPCServer) :
      CoreAssembled w c pa va vac cac sac timeout rs →
      w.newAmqpRPCServer c.RA.AMQP c.RA.MaxConcurrentRPCServerRequests (statsOf w c)
        (loggerOf w c) = Except.ok ras →
      w.newRegistrationAuthorityServer ras (raiOf w c pa vac cac sac rs.2)
        (loggerOf w c) = none →
      w.start ras c.RA.AMQP = none →
      Path w ⟨evAssembled w c pa va rs.1 ++
        [Event.newAmqpRPCServer c.RA.AMQP c.RA.MaxConcurrentRPCServerRequests true,
        Event.newRegistrationAuthorityServer ras (raiOf w c pa vac cac sac rs.2) true,
        Event.start ras true], Outcome.served⟩


/-! ## Vocabulary of the properties -/

/-- A call to one of the two DNS resolver constructors. -/
def Event.isResolverCtor : Event → Bool
  | Event.newDNSResolverImpl _ _ _ => true
  | Event.newTestDNSResolverImpl _ _ _ => true
  | _ => false

/-- A call of the modern (gRPC) Validation client path. -/
def Event.isModernVA : Event → Bool
  | Event.clientSetup _ _ => true
  | Event.newValidationAuthorityGRPCClient _ => true
  | _ => false

/-- A call of the legacy (AMQP) Validation client constructor. -/
def Event.isLegacyVA : Event → Bool
  | Event.newValidationAuthorityClient _ _ => true
  | _ => false

/-- A call to a constructor of the Validation, Certification or Storage client. -/
def Event.isPeerCtor : Event → Bool
  | Event.clientSetup _ _ => true
  | Event.newValidationAuthorityGRPCClient _ => true
  | Event.newValidationAuthorityClient _ _ => true
  | Event.newCertificateAuthorityClient _ _ => true
  | Event.newStorageAuthorityClient _ _ => true
  | _ => false

/-- The call `policy.New`. -/
def Event.isPolicyCtor : Event → Bool
  | Event.policyNew _ => true
  | _ => false

/-- The test of line 94 on `HostnamePolicyFile`. -/
def Event.isHostnameCheck : Event → Bool
  | Event.hostnamePolicyFileGiven _ => true
  | _ => false

/-- The call `ra.NewRegistrationAuthorityImpl`. -/
def Event.isCoreCtor : Event → Bool
  | Event.newRegistrationAuthorityImpl _ => true
  | _ => false

/-- The call `rpc.NewAmqpRPCServer`. -/
def Event.isServerCtor : Event → Bool
  | Event.newAmqpRPCServer _ _ _ => true
  | _ => false

/-- The call `rpc.NewRegistrationAuthorityServer`. -/
def Event.isRegister : Event → Bool
  | Event.newRegistrationAuthorityServer _ _ _ => true
  | _ => false

/-- The call `ras.Start`. -/
def Event.isStart : Event → Bool
  | Event.start _ _ => true
  | _ => false

/-- A call on the inbound server: its constructor, the registration of the RA
core with it, or its start. -/
def Event.isServer (e : Event) : Bool :=
  e.isServerCtor || e.isRegister || e.isStart

/-- A call that wires the service: a peer client constructor, a resolver
constructor, the RA core constructor, or a call on the inbound server. -/
def Event.isWiring (e : Event) : Bool :=
  e.isPeerCtor || e.isResolverCtor || e.isCoreCtor || e.isServer

/-- An assignment to one of the five fields of `rai`. -/
def Event.isAssign : Event → Bool
  | Event.assign _ => true
  | _ => false

/-- In the trace `t` a `p`-call and a `q`-call occur, and every `p`-call occurs
before the first `q`-call. -/
def allBefore (p q : Event → Bool) (t : List Event) : Bool :=
  t.any p && t.any q && !((t.dropWhile (fun e => !q e)).any p)

/-- The fallible startup steps, in the order of the source. -/
inductive Step where
  | configRead | challengeCheck | policyNew | hostnamePolicyGiven | hostnamePolicyLoad
  | vaClient | caClient | saClient | rateLimitLoad | dnsTimeoutParse
  | rpcServerNew | raServerRegister | start
  deriving DecidableEq, Repr

/-- The steps in source order. -/
def stepOrder : List Step :=
  [Step.configRead, Step.challengeCheck, Step.policyNew, Step.hostnamePolicyGiven,
    Step.hostnamePolicyLoad, Step.vaClient, Step.caClient, Step.saClient,
    Step.rateLimitLoad, Step.dnsTimeoutParse, Step.rpcServerNew, Step.raServerRegister,
    Step.start]

/-- The fallible step an event is the execution of, with its result. -/
def Event.step : Event → Option (Step × Bool)
  | Event.usage => none
  | Event.readJSONFile _ ok => some (Step.configRead, ok)
  | Event.debugServer _ => none
  | Event.statsAndLogging => none
  | Event.checkChallenges ok => some (Step.challengeCheck, ok)
  | Event.policyNew ok => some (Step.policyNew, ok)
  | Event.hostnamePolicyFileGiven ok => some (Step.hostnamePolicyGiven, ok)
  | Event.setHostnamePolicyFile _ _ ok => some (Step.hostnamePolicyLoad, ok)
  | Event.profileCmd => none
  | Event.clientSetup _ ok => some (Step.vaClient, ok)
  | Event.newValidationAuthorityGRPCClient _ => none
  | Event.newValidationAuthorityClient _ ok => some (Step.vaClient, ok)
  | Event.newCertificateAuthorityClient _ ok => some (Step.caClient, ok)
  | Event.newStorageAuthorityClient _ ok => some (Step.saClient, ok)
  | Event.newRegistrationAuthorityImpl _ => none
  | Event.setRateLimitPoliciesFile _ ok => some (Step.rateLimitLoad, ok)
  | Event.assign _ => none
  | Event.parseDuration _ ok => some (Step.dnsTimeoutParse, ok)
  | Event.newStatsdScope => none
  | Event.newDNSResolverImpl _ _ _ => none
  | Event.newTestDNSResolverImpl _ _ _ => none
  | Event.newAmqpRPCServer _ _ ok => some (Step.rpcServerNew, ok)
  | Event.newRegistrationAuthorityServer _ _ ok => some (Step.raServerRegister, ok)
  | Event.start _ ok => some (Step.start, ok)
  | Event.fatal _ _ => none

/-- The fallible steps a run executed, in order, each with its result. -/
def steps (r : Run) : List (Step × Bool) :=
  r.trace.filterMap Event.step

/-- The assignment to the field `f` of `rai`. -/
def Event.assigns (f : Field) : Event → Bool
  | Event.assign g => decide (f = g)
  | _ => false

/-- The process ended in the fatal exit of `cmd.FailOnError`. -/
def Outcome.isFailed : Outcome → Bool
  | Outcome.usageExit => false
  | Outcome.failed _ _ => true
  | Outcome.served => false

/-- The run went through `ras.Start` without error. -/
def Outcome.isServed : Outcome → Bool
  | Outcome.usageExit => false
  | Outcome.failed _ _ => false
  | Outcome.served => true

/-- What a run did to the fallible steps, and how it ended. -/
def stepShape (r : Run) : List (Step × Bool) × Bool × Bool :=
  (steps r, r.outcome.isFailed, r.outcome.isServed)

/-- The step sequences a fail-fast run can have: none (usage exit), a prefix
of successes ended by one failure, or all thirteen successes. -/
def failFastShapes : List (List (Step × Bool) × Bool × Bool) :=
  ([], false, false) ::
    ((List.range 13).map fun k =>
      ((stepOrder.take k).map (fun st => (st, true)) ++
        ((stepOrder.drop k).take 1).map (fun st => (st, false)), true, false)) ++
    [(stepOrder.map (fun st => (st, true)), false, true)]

/-- The value of `rai` that `main` hands to `rpc.NewRegistrationAuthorityServer`
in the world `w` with configuration `c`: it exists when the five constructions
it is assembled from succeed. -/
def raiAt (w : World) (c : Config) : Option RegistrationAuthorityImpl :=
  match w.policyNew c.PA.Challenges, (vaStep w c).2,
    w.newCertificateAuthorityClient clientName c.RA.AMQP (statsOf w c),
    w.newStorageAuthorityClient clientName c.RA.AMQP (statsOf w c),
    w.parseDuration c.Common.DNSTimeout with
  | Except.ok pa, Except.ok vac, Except.ok cac, Except.ok sac, Except.ok timeout =>
    some (raiOf w c pa vac cac sac (resolverStep w c timeout).2)
  | _, _, _, _, _ => none

/-- The assignment of outcomes a world gives to the fallible steps: for each
step, whether the call of that step returns without error at the arguments
`main` passes to it (`some true`), returns an error (`some false`), or has no
arguments because a value it needs was not produced (`none`). Nothing here
depends on the order in which `main` runs the steps. -/
def outcomes (w : World) : Step → Option Bool
  | Step.configRead => some (isOk (w.readJSONFile w.configFile))
  | Step.challengeCheck =>
    (w.readJSONFile w.configFile).toOption.map fun c => (w.checkChallenges c.PA).isNone
  | Step.policyNew =>
    (w.readJSONFile w.configFile).toOption.map fun c => isOk (w.policyNew c.PA.Challenges)
  | Step.hostnamePolicyGiven =>
    (w.readJSONFile w.configFile).toOption.map fun c =>
      decide (c.RA.HostnamePolicyFile ≠ "")
  | Step.hostnamePolicyLoad =>
    (w.readJSONFile w.configFile).toOption.bind fun c =>
      (w.policyNew c.PA.Challenges).toOption.map fun pa =>
        (w.setHostnamePolicyFile pa c.RA.HostnamePolicyFile).isNone
  | Step.vaClient =>
    (w.readJSONFile w.configFile).toOption.map fun c => isOk (vaStep w c).2
  | Step.caClient =>
    (w.readJSONFile w.configFile).toOption.map fun c =>
      isOk (w.newCertificateAuthorityClient clientName c.RA.AMQP (statsOf w c))
  | Step.saClient =>
    (w.readJSONFile w.configFile).toOption.map fun c =>
      isOk (w.newStorageAuthorityClient clientName c.RA.AMQP (statsOf w c))
  | Step.rateLimitLoad =>
    (w.readJSONFile w.configFile).toOption.map fun c =>
      (w.setRateLimitPoliciesFile (raiIdOf w c) c.RA.RateLimitPoliciesFilename).isNone
  | Step.dnsTimeoutParse =>
    (w.readJSONFile w.configFile).toOption.map fun c =>
      isOk (w.parseDuration c.Common.DNSTimeout)
  | Step.rpcServerNew =>
    (w.readJSONFile w.configFile).toOption.map fun c =>
      isOk (w.newAmqpRPCServer c.RA.AMQP c.RA.MaxConcurrentRPCServerRequests (statsOf w c)
        (loggerOf w c))
  | Step.raServerRegister =>
    (w.readJSONFile w.configFile).toOption.bind fun c =>
      (raiAt w c).bind fun rai =>
        (w.newAmqpRPCServer c.RA.AMQP c.RA.MaxConcurrentRPCServerRequests (statsOf w c)
          (loggerOf w c)).toOption.map fun ras =>
          (w.newRegistrationAuthorityServer ras rai (loggerOf w c)).isNone
  | Step.start =>
    (w.readJSONFile w.configFile).toOption.bind fun c =>
      (w.newAmqpRPCServer c.RA.AMQP c.RA.MaxConcurrentRPCServerRequests (statsOf w c)
        (loggerOf w c)).toOption.map fun ras => (w.start ras c.RA.AMQP).isNone

/-- The fail-fast reading of an assignment of outcomes `o` over the steps `l`:
the steps run in order, a step runs only after the one before it succeeded,
and the first error ends the run. -/
def failFastRun (o : Step → Option Bool) : List Step → List (Step × Bool)
  | [] => []
  | st :: rest =>
    match o st with
    | some true => (st, true) :: failFastRun o rest
    | some false => [(st, false)]
    | none => []

/-! ## Concrete worlds -/

/-- A configuration with `DNSTries = 0`, no loopback, no `VAService`. -/
def cfg0 : Config :=
  { RA := { DebugAddr := ":8002", AMQP := ⟨"amqp"⟩, HostnamePolicyFile := "hp.json",
            RateLimitPoliciesFilename := "rl.json", MaxConcurrentRPCServerRequests := 16,
            MaxContactsPerRegistration := 100, UseIsSafeDomain := false, DNSTries := 0,
            VAService := none, MaxNames := 1000, DoNotForceCN := false,
            ReuseValidAuthz := true },
    AllowedSigningAlgos := none, PA := ⟨[("http-01", true)]⟩, StatsdConfig := ⟨"statsd"⟩,
    SyslogConfig := ⟨"syslog"⟩,
    Common := { DNSResolver := "127.0.0.1:8053", DNSTimeout := "10s",
                DNSAllowLoopbackAddresses := false } }

/-- A world in which every call succeeds and the configuration read is `cfg`. -/
def worldOf (cfg : Config) : World where
  configFile := "ra.json"
  readJSONFile := fun _ => Except.ok cfg
  statsAndLogging := fun _ _ => (⟨0⟩, ⟨0⟩)
  checkChallenges := fun _ => none
  policyNew := fun _ => Except.ok ⟨1⟩
  setHostnamePolicyFile := fun _ _ => none
  clientSetup := fun _ => Except.ok ⟨2⟩
  newValidationAuthorityGRPCClient := fun _ => ⟨3⟩
  newValidationAuthorityClient := fun _ _ _ => Except.ok ⟨4⟩
  newCertificateAuthorityClient := fun _ _ _ => Except.ok ⟨5⟩
  newStorageAuthorityClient := fun _ _ _ => Except.ok ⟨6⟩
  clockDefault := ⟨0⟩
  keyPolicy := fun _ => ⟨0⟩
  newRegistrationAuthorityImpl := fun _ _ _ _ _ _ _ _ => 7
  setRateLimitPoliciesFile := fun _ _ => none
  parseDuration := fun _ => Except.ok 10000000000
  newStatsdScope := fun _ _ => ⟨0⟩
  newDNSResolverImpl := fun _ _ _ _ tries => ⟨100 + tries.toNat⟩
  newTestDNSResolverImpl := fun _ _ _ _ tries => ⟨200 + tries.toNat⟩
  newAmqpRPCServer := fun _ _ _ _ => Except.ok ⟨10⟩
  newRegistrationAuthorityServer := fun _ _ _ => none
  start := fun _ _ => none

/-- Every call succeeds, configuration `cfg0`. -/
def w0 : World := worldOf cfg0

/-- The configuration `cfg0` with a gRPC descriptor for the Validation service. -/
def cfgGRPC : Config :=
  { cfg0 with RA := { cfg0.RA with VAService := some ⟨"va.boulder:9092"⟩ } }

/-- Every call succeeds, configuration `cfgGRPC`. -/
def wGRPC : World := worldOf cfgGRPC

/-- The configuration `cfg0` with an empty `HostnamePolicyFile`. -/
def cfgNoPolicyFile : Config :=
  { cfg0 with RA := { cfg0.RA with HostnamePolicyFile := "" } }

/-- Every call succeeds, configuration `cfgNoPolicyFile`. -/
def wNoPolicyFile : World := worldOf cfgNoPolicyFile

/-- The configuration `cfg0` with a `DNSTimeout` that is not a duration. -/
def cfgBadTimeout : Config :=
  { cfg0 with Common := { cfg0.Common with DNSTimeout := "soon" } }

/-- Every call succeeds except `time.ParseDuration`, which rejects every string
but `"10s"`; configuration `cfgBadTimeout`. -/
def wBadTimeout : World :=
  { worldOf cfgBadTimeout with
    parseDuration := fun s =>
      if s = "10s" then Except.ok 10000000000
      else Except.error "time: invalid duration" }

/-! ## Running the model -/

theorem bind_run {α β : Type} (m : Startup α) (f : α → Startup β) (t : List Event) :
    (m >>= f) t = match m t with
      | (t1, Except.ok a) => f a t1
      | (t1, Except.error o) => (t1, Except.error o) := rfl

theorem pure_run {α : Type} (a : α) (t : List Event) :
    (pure a : Startup α) t = (t, Except.ok a) := rfl

theorem emit_run (e : Event) (t : List Event) : emit e t = (t ++ [e], Except.ok ()) := rfl

theorem exitWith_run {α : Type} (o : Outcome) (t : List Event) :
    (exitWith o : Startup α) t = (t, Except.error o) := rfl

/-- The two ways the Validation client block succeeds. -/
theorem vaStep_ok {w : World} {c : Config} {va : List Event} {vac : ValidationAuthority}
    (h : vaStep w c = (va, Except.ok vac)) :
    (∃ s conn, c.RA.VAService = some s ∧ w.clientSetup s = Except.ok conn ∧
      va = [Event.clientSetup s true, Event.newValidationAuthorityGRPCClient conn] ∧
      vac = w.newValidationAuthorityGRPCClient conn) ∨
    (c.RA.VAService = none ∧
      w.newValidationAuthorityClient clientName c.RA.AMQP (statsOf w c) = Except.ok vac ∧
      va = [Event.newValidationAuthorityClient c.RA.AMQP true]) := by
  unfold vaStep at h
  cases hv : c.RA.VAService with
  | some s =>
    cases hs : w.clientSetup s with
    | error e => simp [hv, hs] at h
    | ok conn =>
      simp [hv, hs] at h
      exact Or.inl ⟨s, conn, rfl, hs, h.1.symm, h.2.symm⟩
  | none =>
    cases hs : w.newValidationAuthorityClient clientName c.RA.AMQP (statsOf w c) with
    | error e => simp [hv, hs] at h
    | ok v =>
      simp [hv, hs] at h
      exact Or.inr ⟨rfl, by rw [← h.2], h.1.symm⟩

/-- The two ways the Validation client block fails. -/
theorem vaStep_error {w : World} {c : Config} {va : List Event} {e : Err}
    (h : vaStep w c = (va, Except.error e)) :
    (∃ s, c.RA.VAService = some s ∧ w.clientSetup s = Except.error e ∧
      va = [Event.clientSetup s false]) ∨
    (c.RA.VAService = none ∧
      w.newValidationAuthorityClient clientName c.RA.AMQP (statsOf w c) = Except.error e ∧
      va = [Event.newValidationAuthorityClient c.RA.AMQP false]) := by
  unfold vaStep at h
  cases hv : c.RA.VAService with
  | some s =>
    cases hs : w.clientSetup s with
    | ok conn => simp [hv, hs] at h
    | error e1 =>
      simp [hv, hs] at h
      exact Or.inl ⟨s, rfl, by rw [← h.2]; exact hs, h.1.symm⟩
  | none =>
    cases hs : w.newValidationAuthorityClient clientName c.RA.AMQP (statsOf w c) with
    | ok v => simp [hv, hs] at h
    | error e1 =>
      simp [hv, hs] at h
      exact Or.inr ⟨rfl, by rw [← h.2], h.1.symm⟩

/-- The two resolver variants. -/
theorem resolverStep_cases {w : World} {c : Config} {timeout : Duration}
    {rs : Event × DNSResolver} (h : resolverStep w c timeout = rs) :
    (c.Common.DNSAllowLoopbackAddresses = false ∧
      rs = (Event.newDNSResolverImpl timeout [c.Common.DNSResolver] (dnsTriesOf c),
        w.newDNSResolverImpl timeout [c.Common.DNSResolver]
          (w.newStatsdScope (statsOf w c) ["RA", "DNS"]) w.clockDefault (dnsTriesOf c))) ∨
    (c.Common.DNSAllowLoopbackAddresses = true ∧
      rs = (Event.newTestDNSResolverImpl timeout [c.Common.DNSResolver] (dnsTriesOf c),
        w.newTestDNSResolverImpl timeout [c.Common.DNSResolver]
          (w.newStatsdScope (statsOf w c) ["RA", "DNS"]) w.clockDefault (dnsTriesOf c))) := by
  subst h
  unfold resolverStep
  cases c.Common.DNSAllowLoopbackAddresses <;> simp

set_option maxHeartbeats 4000000 in
/-- Every run of `main` is one of the paths. -/
theorem main_path (w : World) : Path w (main w) := by
  by_cases h0 : w.configFile = ""
  · have hP := Path.usage h0
    simp only [main, mainM, bind_run, pure_run, emit_run, exitWith_run, orFail, failOnError, isOk,
      evConfig, evPolicy, evPeers, evCore, evAssembled, raiOf, raiIdOf, statsOf, loggerOf,
      resolverStep, dnsTriesOf, Option.isNone, List.nil_append, List.cons_append,
      List.append_assoc, Bool.not_false, Bool.not_true, Bool.false_eq_true, if_true, if_false,
      ite_true, ite_false, not_true_eq_false, not_false_eq_true, ne_eq,
      h0] at hP ⊢
    exact hP
  cases h1 : w.readJSONFile w.configFile with
  | error e =>
    have hP := Path.readFailed e h0 h1
    simp only [main, mainM, bind_run, pure_run, emit_run, exitWith_run, orFail, failOnError, isOk,
      evConfig, evPolicy, evPeers, evCore, evAssembled, raiOf, raiIdOf, statsOf, loggerOf,
      resolverStep, dnsTriesOf, Option.isNone, List.nil_append, List.cons_append,
      List.append_assoc, Bool.not_false, Bool.not_true, Bool.false_eq_true, if_true, if_false,
      ite_true, ite_false, not_true_eq_false, not_false_eq_true, ne_eq,
      h0, h1] at hP ⊢
    exact hP
  | ok c =>
  have hc : ConfigLoaded w c := ⟨h0, h1⟩
  cases h2 : w.checkChallenges c.PA with
  | some e =>
    have hP := Path.challengesInvalid c e hc h2
    simp only [main, mainM, bind_run, pure_run, emit_run, exitWith_run, orFail, failOnError, isOk,
      evConfig, evPolicy, evPeers, evCore, evAssembled, raiOf, raiIdOf, statsOf, loggerOf,
      resolverStep, dnsTriesOf, Option.isNone, List.nil_append, List.cons_append,
      List.append_assoc, Bool.not_false, Bool.not_true, Bool.false_eq_true, if_true, if_false,
      ite_true, ite_false, not_true_eq_false, not_false_eq_true, ne_eq,
      h0, h1, h2] at hP ⊢
    exact hP
  | none =>
  cases h3 : w.policyNew c.PA.Challenges with
  | error e =>
    have hP := Path.policyNewFailed c e hc h2 h3
    simp only [main, mainM, bind_run, pure_run, emit_run, exitWith_run, orFail, failOnError, isOk,
      evConfig, evPolicy, evPeers, evCore, evAssembled, raiOf, raiIdOf, statsOf, loggerOf,
      resolverStep, dnsTriesOf, Option.isNone, List.nil_append, List.cons_append,
      List.append_assoc, Bool.not_false, Bool.not_true, Bool.false_eq_true, if_true, if_false,
      ite_true, ite_false, not_true_eq_false, not_false_eq_true, ne_eq,
      h0, h1, h2, h3] at hP ⊢
    exact hP
  | ok pa =>
  by_cases h4 : c.RA.HostnamePolicyFile = ""
  · have hP := Path.hostnamePolicyMissing c pa hc h2 h3 h4
    simp only [main, mainM, bind_run, pure_run, emit_run, exitWith_run, orFail, failOnError, isOk,
      evConfig, evPolicy, evPeers, evCore, evAssembled, raiOf, raiIdOf, statsOf, loggerOf,
      resolverStep, dnsTriesOf, Option.isNone, List.nil_append, List.cons_append,
      List.append_assoc, Bool.not_false, Bool.not_true, Bool.false_eq_true, if_true, if_false,
      ite_true, ite_false, not_true_eq_false, not_false_eq_true, ne_eq,
      h0, h1, h2, h3, h4] at hP ⊢
    exact hP
  have h4b : (c.RA.HostnamePolicyFile != "") = true := by simpa using h4
  cases h5 : w.setHostnamePolicyFile pa c.RA.HostnamePolicyFile with
  | some e =>
    have hP := Path.hostnamePolicyLoadFailed c pa e hc h2 h3 h4 h5
    simp only [main, mainM, bind_run, pure_run, emit_run, exitWith_run, orFail, failOnError, isOk,
      evConfig, evPolicy, evPeers, evCore, evAssembled, raiOf, raiIdOf, statsOf, loggerOf,
      resolverStep, dnsTriesOf, Option.isNone, List.nil_append, List.cons_append,
      List.append_assoc, Bool.not_false, Bool.not_true, Bool.false_eq_true, if_true, if_false,
      ite_true, ite_false, not_true_eq_false, not_false_eq_true, ne_eq,
      h0, h1, h2, h3, h4, h4b, h5] at hP ⊢
    exact hP
  | none =>
  have hp : PolicyReady w c pa := ⟨hc, h2, h3, h4, h5⟩
  cases h6 : vaStep w c with
  | mk va r =>
  cases r with
  | error e =>
    have h := Path.vaFailed c pa va e hp h6
    rcases vaStep_error h6 with ⟨s, hv, hs, rfl⟩ | ⟨hv, hs, rfl⟩ <;>
      (try simp only [statsOf] at hs) <;>
      (simp only [main, mainM, bind_run, pure_run, emit_run, exitWith_run, orFail, failOnError, isOk,
      evConfig, evPolicy, evPeers, evCore, evAssembled, raiOf, raiIdOf, statsOf, loggerOf,
      resolverStep, dnsTriesOf, Option.isNone, List.nil_append, List.cons_append,
      List.append_assoc, Bool.not_false, Bool.not_true, Bool.false_eq_true, if_true, if_false,
      ite_true, ite_false, not_true_eq_false, not_false_eq_true, ne_eq,
      h0, h1, h2, h3, h4, h4b, h5, hv, hs] at h ⊢
       exact h)
  | ok vac =>
  cases h7 : w.newCertificateAuthorityClient clientName c.RA.AMQP (statsOf w c) with
  | error e =>
    have h := Path.caFailed c pa va vac e hp h6 h7
    simp only [statsOf] at h7
    rcases vaStep_ok h6 with ⟨s, conn, hv, hs, rfl, rfl⟩ | ⟨hv, hs, rfl⟩ <;>
      (try simp only [statsOf] at hs) <;>
      (simp only [main, mainM, bind_run, pure_run, emit_run, exitWith_run, orFail, failOnError, isOk,
      evConfig, evPolicy, evPeers, evCore, evAssembled, raiOf, raiIdOf, statsOf, loggerOf,
      resolverStep, dnsTriesOf, Option.isNone, List.nil_append, List.cons_append,
      List.append_assoc, Bool.not_false, Bool.not_true, Bool.false_eq_true, if_true, if_false,
      ite_true, ite_false, not_true_eq_false, not_false_eq_true, ne_eq,
      h0, h1, h2, h3, h4, h4b, h5, hv, hs, h7] at h ⊢
       exact h)
  | ok cac =>
  cases h8 : w.newStorageAuthorityClient clientName c.RA.AMQP (statsOf w c) with
  | error e =>
    have h := Path.saFailed c pa va vac cac e hp h6 h7 h8
    simp only [statsOf] at h7 h8
    rcases vaStep_ok h6 with ⟨s, conn, hv, hs, rfl, rfl⟩ | ⟨hv, hs, rfl⟩ <;>
      (try simp only [statsOf] at hs) <;>
      (simp only [main, mainM, bind_run, pure_run, emit_run, exitWith_run, orFail, failOnError, isOk,
      evConfig, evPolicy, evPeers, evCore, evAssembled, raiOf, raiIdOf, statsOf, loggerOf,
      resolverStep, dnsTriesOf, Option.isNone, List.nil_append, List.cons_append,
      List.append_assoc, Bool.not_false, Bool.not_true, Bool.false_eq_true, if_true, if_false,
      ite_true, ite_false, not_true_eq_false, not_false_eq_true, ne_eq,
      h0, h1, h2, h3, h4, h4b, h5, hv, hs, h7, h8] at h ⊢
       exact h)
  | ok sac =>
  have hpe : PeersReady w c pa va vac cac sac := ⟨hp, h6, h7, h8⟩
  cases h9 : w.setRateLimitPoliciesFile (raiIdOf w c) c.RA.RateLimitPoliciesFilename with
  | some e =>
    have h := Path.rateLimitFailed c pa va vac cac sac e hpe h9
    simp only [statsOf, raiIdOf, loggerOf] at h7 h8 h9
    rcases vaStep_ok h6 with ⟨s, conn, hv, hs, rfl, rfl⟩ | ⟨hv, hs, rfl⟩ <;>
      (try simp only [statsOf] at hs) <;>
      (simp only [main, mainM, bind_run, pure_run, emit_run, exitWith_run, orFail, failOnError, isOk,
      evConfig, evPolicy, evPeers, evCore, evAssembled, raiOf, raiIdOf, statsOf, loggerOf,
      resolverStep, dnsTriesOf, Option.isNone, List.nil_append, List.cons_append,
      List.append_assoc, Bool.not_false, Bool.not_true, Bool.false_eq_true, if_true, if_false,
      ite_true, ite_false, not_true_eq_false, not_false_eq_true, ne_eq,
      h0, h1, h2, h3, h4, h4b, h5, hv, hs, h7, h8, h9] at h ⊢
       exact h)
  | none =>
  cases h10 : w.parseDuration c.Common.DNSTimeout with
  | error e =>
    have h := Path.timeoutInvalid c pa va vac cac sac e hpe h9 h10
    simp only [statsOf, raiIdOf, loggerOf] at h7 h8 h9
    rcases vaStep_ok h6 with ⟨s, conn, hv, hs, rfl, rfl⟩ | ⟨hv, hs, rfl⟩ <;>
      (try simp only [statsOf] at hs) <;>
      (simp only [main, mainM, bind_run, pure_run, emit_run, exitWith_run, orFail, failOnError, isOk,
      evConfig, evPolicy, evPeers, evCore, evAssembled, raiOf, raiIdOf, statsOf, loggerOf,
      resolverStep, dnsTriesOf, Option.isNone, List.nil_append, List.cons_append,
      List.append_assoc, Bool.not_false, Bool.not_true, Bool.false_eq_true, if_true, if_false,
      ite_true, ite_false, not_true_eq_false, not_false_eq_true, ne_eq,
      h0, h1, h2, h3, h4, h4b, h5, hv, hs, h7, h8, h9, h10] at h ⊢
       exact h)
  | ok timeout =>
  have hco : CoreAssembled w c pa va vac cac sac timeout (resolverStep w c timeout) :=
    ⟨hpe, h9, h10, rfl⟩
  cases h11 : w.newAmqpRPCServer c.RA.AMQP c.RA.MaxConcurrentRPCServerRequests (statsOf w c)
      (loggerOf w c) with
  | error e =>
    have h := Path.rpcServerFailed c pa va vac cac sac timeout _ e hco h11
    simp only [statsOf, raiIdOf, loggerOf] at h7 h8 h9 h11
    rcases vaStep_ok h6 with ⟨s, conn, hv, hs, rfl, rfl⟩ | ⟨hv, hs, rfl⟩ <;>
      (try simp only [statsOf] at hs) <;>
      cases hl : c.Common.DNSAllowLoopbackAddresses <;>
      by_cases ht : c.RA.DNSTries < 1 <;>
      (simp only [main, mainM, bind_run, pure_run, emit_run, exitWith_run, orFail, failOnError, isOk,
      evConfig, evPolicy, evPeers, evCore, evAssembled, raiOf, raiIdOf, statsOf, loggerOf,
      resolverStep, dnsTriesOf, Option.isNone, List.nil_append, List.cons_append,
      List.append_assoc, Bool.not_false, Bool.not_true, Bool.false_eq_true, if_true, if_false,
      ite_true, ite_false, not_true_eq_false, not_false_eq_true, ne_eq,
      h0, h1, h2, h3, h4, h4b, h5, hv, hs, h7, h8, h9, h10, h11, hl, ht] at h ⊢
       exact h)
  | ok ras =>
  cases h12 : w.newRegistrationAuthorityServer ras (raiOf w c pa vac cac sac (resolverStep w c timeout).2)
      (loggerOf w c) with
  | some e =>
    have h := Path.registerFailed c pa va vac cac sac timeout _ ras e hco h11 h12
    simp only [statsOf, raiIdOf, loggerOf, raiOf, resolverStep, dnsTriesOf] at h7 h8 h9 h11 h12
    rcases vaStep_ok h6 with ⟨s, conn, hv, hs, rfl, rfl⟩ | ⟨hv, hs, rfl⟩ <;>
      (try simp only [statsOf] at hs) <;>
      cases hl : c.Common.DNSAllowLoopbackAddresses <;>
      by_cases ht : c.RA.DNSTries < 1 <;>
      simp only [hl, ht, if_true, if_false, Bool.false_eq_true] at h12 <;>
      (simp only [main, mainM, bind_run, pure_run, emit_run, exitWith_run, orFail, failOnError, isOk,
      evConfig, evPolicy, evPeers, evCore, evAssembled, raiOf, raiIdOf, statsOf, loggerOf,
      resolverStep, dnsTriesOf, Option.isNone, List.nil_append, List.cons_append,
      List.append_assoc, Bool.not_false, Bool.not_true, Bool.false_eq_true, if_true, if_false,
      ite_true, ite_false, not_true_eq_false, not_false_eq_true, ne_eq,
      h0, h1, h2, h3, h4, h4b, h5, hv, hs, h7, h8, h9, h10, h11, h12, hl, ht] at h ⊢
       exact h)
  | none =>
  cases h13 : w.start ras c.RA.AMQP with
  | some e =>
    have h := Path.startFailed c pa va vac cac sac timeout _ ras e hco h11 h12 h13
    simp only [statsOf, raiIdOf, loggerOf, raiOf, resolverStep, dnsTriesOf] at h7 h8 h9 h11 h12
    rcases vaStep_ok h6 with ⟨s, conn, hv, hs, rfl, rfl⟩ | ⟨hv, hs, rfl⟩ <;>
      (try simp only [statsOf] at hs) <;>
      cases hl : c.Common.DNSAllowLoopbackAddresses <;>
      by_cases ht : c.RA.DNSTries < 1 <;>
      simp only [hl, ht, if_true, if_false, Bool.false_eq_true] at h12 <;>
      (simp only [main, mainM, bind_run, pure_run, emit_run, exitWith_run, orFail, failOnError, isOk,
      evConfig, evPolicy, evPeers, evCore, evAssembled, raiOf, raiIdOf, statsOf, loggerOf,
      resolverStep, dnsTriesOf, Option.isNone, List.nil_append, List.cons_append,
      List.append_assoc, Bool.not_false, Bool.not_true, Bool.false_eq_true, if_true, if_false,
      ite_true, ite_false, not_true_eq_false, not_false_eq_true, ne_eq,
      h0, h1, h2, h3, h4, h4b, h5, hv, hs, h7, h8, h9, h10, h11, h12, h13, hl, ht] at h ⊢
       exact h)
  | none =>
    have h := Path.served c pa va vac cac sac timeout _ ras hco h11 h12 h13
    simp only [statsOf, raiIdOf, loggerOf, raiOf, resolverStep, dnsTriesOf] at h7 h8 h9 h11 h12
    rcases vaStep_ok h6 with ⟨s, conn, hv, hs, rfl, rfl⟩ | ⟨hv, hs, rfl⟩ <;>
      (try simp only [statsOf] at hs) <;>
      cases hl : c.Common.DNSAllowLoopbackAddresses <;>
      by_cases ht : c.RA.DNSTries < 1 <;>
      simp only [hl, ht, if_true, if_false, Bool.false_eq_true] at h12 <;>
      (simp only [main, mainM, bind_run, pure_run, emit_run, exitWith_run, orFail, failOnError, isOk,
      evConfig, evPolicy, evPeers, evCore, evAssembled, raiOf, raiIdOf, statsOf, loggerOf,
      resolverStep, dnsTriesOf, Option.isNone, List.nil_append, List.cons_append,
      List.append_assoc, Bool.not_false, Bool.not_true, Bool.false_eq_true, if_true, if_false,
      ite_true, ite_false, not_true_eq_false, not_false_eq_true, ne_eq,
      h0, h1, h2, h3, h4, h4b, h5, hv, hs, h7, h8, h9, h10, h11, h12, h13, hl, ht] at h ⊢
       exact h)

/-! ## Facts shared by the claims -/

/-- The retry budget of lines 136-139 is `max n 1`. -/
theorem dnsTriesOf_eq_max (c : Config) : dnsTriesOf c = max c.RA.DNSTries 1 := by
  unfold dnsTriesOf
  split <;> omega

/-- A resolver constructor call in the trace carries the clamped budget. -/
theorem resolver_call_tries (w : World) (c : Config)
    (hc : w.readJSONFile w.configFile = Except.ok c)
    (timeout : Duration) (servers : List String) (tries : Int)
    (h : Event.newDNSResolverImpl timeout servers tries ∈ (main w).trace ∨
      Event.newTestDNSResolverImpl timeout servers tries ∈ (main w).trace) :
    tries = dnsTriesOf c := by
  have hp := main_path w
  revert h
  generalize main w = r at hp
  cases hp <;>
    (try simp only [CoreAssembled, PeersReady, PolicyReady, ConfigLoaded] at *) <;>
    (try casesm* _ ∧ _) <;>
    (try cases hc.symm.trans ‹w.readJSONFile w.configFile = Except.ok _›) <;>
    (try rcases vaStep_ok ‹_› with ⟨s, conn, hv, hs, rfl, rfl⟩ | ⟨hv, hs, rfl⟩) <;>
    (try rcases vaStep_error ‹_› with ⟨s, hv, hs, rfl⟩ | ⟨hv, hs, rfl⟩) <;>
    (try rcases resolverStep_cases ‹_› with ⟨hl, rfl⟩ | ⟨hl, rfl⟩) <;>
    simp_all [evConfig, evPolicy, evPeers, evCore, evAssembled, raiOf]

/-- No modern Validation call is made unless the descriptor is present. -/
theorem modern_needs_descriptor (w : World) (c : Config)
    (hc : w.readJSONFile w.configFile = Except.ok c) :
    (main w).trace.all (fun e => !e.isModernVA) = true ∨ c.RA.VAService ≠ none := by
  have hp := main_path w
  generalize main w = r at hp
  cases hp <;>
    (try simp only [CoreAssembled, PeersReady, PolicyReady, ConfigLoaded] at *) <;>
    (try casesm* _ ∧ _) <;>
    (try cases hc.symm.trans ‹w.readJSONFile w.configFile = Except.ok _›) <;>
    (try rcases vaStep_ok ‹_› with ⟨s, conn, hv, hs, rfl, rfl⟩ | ⟨hv, hs, rfl⟩) <;>
    (try rcases vaStep_error ‹_› with ⟨s, hv, hs, rfl⟩ | ⟨hv, hs, rfl⟩) <;>
    (try rcases resolverStep_cases ‹_› with ⟨hl, rfl⟩ | ⟨hl, rfl⟩) <;>
    first
    | exact Or.inl rfl
    | exact Or.inr (by simp [*])

/-- No legacy Validation call is made unless the descriptor is absent. -/
theorem legacy_needs_no_descriptor (w : World) (c : Config)
    (hc : w.readJSONFile w.configFile = Except.ok c) :
    (main w).trace.all (fun e => !e.isLegacyVA) = true ∨ c.RA.VAService = none := by
  have hp := main_path w
  generalize main w = r at hp
  cases hp <;>
    (try simp only [CoreAssembled, PeersReady, PolicyReady, ConfigLoaded] at *) <;>
    (try casesm* _ ∧ _) <;>
    (try cases hc.symm.trans ‹w.readJSONFile w.configFile = Except.ok _›) <;>
    (try rcases vaStep_ok ‹_› with ⟨s, conn, hv, hs, rfl, rfl⟩ | ⟨hv, hs, rfl⟩) <;>
    (try rcases vaStep_error ‹_› with ⟨s, hv, hs, rfl⟩ | ⟨hv, hs, rfl⟩) <;>
    (try rcases resolverStep_cases ‹_› with ⟨hl, rfl⟩ | ⟨hl, rfl⟩) <;>
    first
    | exact Or.inl rfl
    | exact Or.inr (by assumption)

/-- Once the Validation block is reached, the call made is the one selected
by the presence of the descriptor. -/
theorem va_block_reached (w : World) (c : Config)
    (hc : w.readJSONFile w.configFile = Except.ok c)
    (h : Event.profileCmd ∈ (main w).trace) :
    (c.RA.VAService ≠ none ∧ (main w).trace.any Event.isModernVA = true) ∨
    (c.RA.VAService = none ∧ (main w).trace.any Event.isLegacyVA = true) := by
  have hp := main_path w
  revert h
  generalize main w = r at hp
  cases hp <;>
    (try simp only [CoreAssembled, PeersReady, PolicyReady, ConfigLoaded] at *) <;>
    (try casesm* _ ∧ _) <;>
    (try cases hc.symm.trans ‹w.readJSONFile w.configFile = Except.ok _›) <;>
    (try rcases vaStep_ok ‹_› with ⟨s, conn, hv, hs, rfl, rfl⟩ | ⟨hv, hs, rfl⟩) <;>
    (try rcases vaStep_error ‹_› with ⟨s, hv, hs, rfl⟩ | ⟨hv, hs, rfl⟩) <;>
    (try rcases resolverStep_cases ‹_› with ⟨hl, rfl⟩ | ⟨hl, rfl⟩) <;>
    first
    | exact fun _ => Or.inl ⟨by simp [*], rfl⟩
    | exact fun _ => Or.inr ⟨by assumption, rfl⟩
    | (intro h; simp [evConfig] at h)

/-- When the descriptor is present and the connection setup fails, the run
that reached the Validation block ends with the fatal exit of that block. -/
theorem modern_setup_failure (w : World) (c : Config)
    (hc : w.readJSONFile w.configFile = Except.ok c) (s : GRPCClientConfig) (err : Err)
    (hs : c.RA.VAService = some s) (he : w.clientSetup s = Except.error err)
    (h : Event.profileCmd ∈ (main w).trace) :
    (main w).outcome = Outcome.failed "Unable to create VA client" err := by
  have hp := main_path w
  revert h
  generalize main w = r at hp
  cases hp <;>
    (try simp only [CoreAssembled, PeersReady, PolicyReady, ConfigLoaded] at *) <;>
    (try casesm* _ ∧ _) <;>
    (try cases hc.symm.trans ‹w.readJSONFile w.configFile = Except.ok _›) <;>
    (try rcases vaStep_ok ‹_› with ⟨s, conn, hv, hs, rfl, rfl⟩ | ⟨hv, hs, rfl⟩) <;>
    (try rcases vaStep_error ‹_› with ⟨s, hv, hs, rfl⟩ | ⟨hv, hs, rfl⟩) <;>
    (try rcases resolverStep_cases ‹_› with ⟨hl, rfl⟩ | ⟨hl, rfl⟩) <;>
    first
    | (intro h; simp [evConfig] at h; done)
    | (intro _; simp_all)

/-- A run without wiring calls, stated on each event. -/
theorem no_wiring_of_all {t : List Event} (h : t.all (fun e => !e.isWiring) = true) :
    ∀ e ∈ t, e.isPeerCtor = false ∧ e.isResolverCtor = false ∧ e.isCoreCtor = false ∧
      e.isServer = false := by
  intro e he
  have := List.all_eq_true.mp h e he
  simpa [Event.isWiring, not_or, and_assoc] using this

/-- With an empty hostname-policy path the run stops at line 95 at the latest. -/
theorem hostname_policy_missing_facts (w : World)
    (h : ∀ c, w.readJSONFile w.configFile = Except.ok c → c.RA.HostnamePolicyFile = "") :
    (main w).outcome.isServed = false ∧
    (w.configFile ≠ "" → (main w).outcome.isFailed = true) ∧
    (main w).trace.all (fun e => !e.isWiring) = true := by
  have hp := main_path w
  generalize main w = r at hp
  cases hp <;>
    (try simp only [CoreAssembled, PeersReady, PolicyReady, ConfigLoaded] at *) <;>
    (try casesm* _ ∧ _) <;>
    first
    | exact absurd (h _ ‹w.readJSONFile w.configFile = Except.ok _›) ‹_›
    | exact ⟨rfl, fun _ => rfl, rfl⟩
    | exact ⟨rfl, fun hn => absurd ‹w.configFile = ""› hn, rfl⟩

/-- With an empty hostname-policy path, a valid challenge configuration and a
policy engine, the run ends with the message of line 95. -/
theorem hostname_policy_missing_message (w : World) (c : Config) (pa : PolicyAuthority)
    (h0 : w.configFile ≠ "") (hc : w.readJSONFile w.configFile = Except.ok c)
    (h2 : w.checkChallenges c.PA = none) (h3 : w.policyNew c.PA.Challenges = Except.ok pa)
    (h4 : c.RA.HostnamePolicyFile = "") :
    (main w).outcome = Outcome.failed "" "HostnamePolicyFile must be provided." := by
  have hp := main_path w
  generalize main w = r at hp
  cases hp <;>
    (try simp only [CoreAssembled, PeersReady, PolicyReady, ConfigLoaded] at *) <;>
    (try casesm* _ ∧ _) <;>
    (try cases hc.symm.trans ‹w.readJSONFile w.configFile = Except.ok _›) <;>
    first
    | rfl
    | simp_all

/-- With an invalid challenge configuration the run stops at line 89 at the
latest. -/
theorem challenges_invalid_facts (w : World)
    (h : ∀ c, w.readJSONFile w.configFile = Except.ok c → w.checkChallenges c.PA ≠ none) :
    (main w).outcome.isServed = false ∧
    (main w).trace.all (fun e => !e.isWiring && !e.isPolicyCtor) = true := by
  have hp := main_path w
  generalize main w = r at hp
  cases hp <;>
    (try simp only [CoreAssembled, PeersReady, PolicyReady, ConfigLoaded] at *) <;>
    (try casesm* _ ∧ _) <;>
    first
    | exact absurd ‹w.checkChallenges _ = none› (h _ ‹_›)
    | exact ⟨rfl, rfl⟩

/-- With a `DNSTimeout` that does not parse the run stops at line 134 at the
latest. -/
theorem timeout_invalid_facts (w : World)
    (h : ∀ c, w.readJSONFile w.configFile = Except.ok c →
      isOk (w.parseDuration c.Common.DNSTimeout) = false) :
    (main w).outcome.isServed = false ∧
    (main w).trace.all (fun e => !e.isServer && !e.isResolverCtor) = true := by
  have hp := main_path w
  generalize main w = r at hp
  cases hp <;>
    (try simp only [CoreAssembled, PeersReady, PolicyReady, ConfigLoaded] at *) <;>
    (try casesm* _ ∧ _) <;>
    (try rcases vaStep_ok ‹_› with ⟨s, conn, hv, hs, rfl, rfl⟩ | ⟨hv, hs, rfl⟩) <;>
    (try rcases vaStep_error ‹_› with ⟨s, hv, hs, rfl⟩ | ⟨hv, hs, rfl⟩) <;>
    (try rcases resolverStep_cases ‹_› with ⟨hl, rfl⟩ | ⟨hl, rfl⟩) <;>
    first
    | exact ⟨rfl, rfl⟩
    | exact absurd (h _ ‹_›) (by rw [‹w.parseDuration _ = Except.ok _›]; simp [isOk])

/-- Whenever the test of line 94 is executed, `policy.New` was called before it. -/
theorem policy_engine_before_hostname_check (w : World) :
    (main w).trace.all (fun e => !e.isHostnameCheck) = true ∨
    allBefore Event.isPolicyCtor Event.isHostnameCheck (main w).trace = true := by
  have hp := main_path w
  generalize main w = r at hp
  cases hp <;>
    (try simp only [CoreAssembled, PeersReady, PolicyReady, ConfigLoaded] at *) <;>
    (try casesm* _ ∧ _) <;>
    (try rcases vaStep_ok ‹_› with ⟨s, conn, hv, hs, rfl, rfl⟩ | ⟨hv, hs, rfl⟩) <;>
    (try rcases vaStep_error ‹_› with ⟨s, hv, hs, rfl⟩ | ⟨hv, hs, rfl⟩) <;>
    (try rcases resolverStep_cases ‹_› with ⟨hl, rfl⟩ | ⟨hl, rfl⟩) <;>
    first
    | exact Or.inl rfl
    | exact Or.inr rfl


/-- The steps of every run have one of the fail-fast shapes. -/
theorem stepShape_mem (w : World) : stepShape (main w) ∈ failFastShapes := by
  have hp := main_path w
  generalize main w = r at hp
  cases hp <;>
    (try simp only [CoreAssembled, PeersReady, PolicyReady, ConfigLoaded] at *) <;>
    (try casesm* _ ∧ _) <;>
    (try rcases vaStep_ok ‹_› with ⟨s, conn, hv, hs, rfl, rfl⟩ | ⟨hv, hs, rfl⟩) <;>
    (try rcases vaStep_error ‹_› with ⟨s, hv, hs, rfl⟩ | ⟨hv, hs, rfl⟩) <;>
    (try rcases resolverStep_cases ‹_› with ⟨hl, rfl⟩ | ⟨hl, rfl⟩) <;>
    (simp only [stepShape, steps, evConfig, evPolicy, evPeers, evCore, evAssembled,
      List.cons_append, List.nil_append, List.append_assoc, List.filterMap_cons,
      List.filterMap_nil, Event.step, Outcome.isFailed, Outcome.isServed]
     decide)

/-- The value of `rai` at the call of `rpc.NewRegistrationAuthorityServer`:
each of the five fields holds what the corresponding constructor returned, and
each was assigned before that call and not after. -/
theorem register_call_facts (w : World) (c : Config)
    (hc : w.readJSONFile w.configFile = Except.ok c)
    (ras : AmqpRPCServer) (rai : RegistrationAuthorityImpl) (ok : Bool)
    (h : Event.newRegistrationAuthorityServer ras rai ok ∈ (main w).trace) :
    (rai.PA = (w.policyNew c.PA.Challenges).toOption ∧ rai.PA.isSome = true) ∧
    (rai.DNSResolver = (w.parseDuration c.Common.DNSTimeout).toOption.map
        (fun t => (resolverStep w c t).2) ∧ rai.DNSResolver.isSome = true) ∧
    (rai.VA = (vaStep w c).2.toOption ∧ rai.VA.isSome = true) ∧
    (rai.CA = (w.newCertificateAuthorityClient clientName c.RA.AMQP (statsOf w c)).toOption ∧
      rai.CA.isSome = true) ∧
    (rai.SA = (w.newStorageAuthorityClient clientName c.RA.AMQP (statsOf w c)).toOption ∧
      rai.SA.isSome = true) ∧
    rai.id = raiIdOf w c ∧
    w.newAmqpRPCServer c.RA.AMQP c.RA.MaxConcurrentRPCServerRequests (statsOf w c)
      (loggerOf w c) = Except.ok ras ∧
    ∀ f, allBefore (Event.assigns f) Event.isRegister (main w).trace = true := by
  have hp := main_path w
  revert h
  generalize main w = r at hp
  cases hp <;>
    (try simp only [CoreAssembled, PeersReady, PolicyReady, ConfigLoaded] at *) <;>
    (try casesm* _ ∧ _) <;>
    (try cases hc.symm.trans ‹w.readJSONFile w.configFile = Except.ok _›) <;>
    first
    | (intro h
       simp only [evConfig, evPolicy, evPeers, evCore, evAssembled, raiOf] at h
       rcases vaStep_ok ‹_› with ⟨s, conn, hv, hs, rfl, rfl⟩ | ⟨hv, hs, rfl⟩ <;>
       rcases resolverStep_cases ‹_› with ⟨hl, rfl⟩ | ⟨hl, rfl⟩ <;>
       simp at h <;>
       obtain ⟨rfl, rfl, rfl⟩ := h <;>
       refine ⟨?_, ?_, ?_, ?_, ?_, rfl, ‹_›, fun f => by cases f <;> rfl⟩ <;>
       simp [*, raiOf, Except.toOption])
    | (intro h
       try rcases vaStep_ok ‹_› with ⟨s, conn, hv, hs, rfl, rfl⟩ | ⟨hv, hs, rfl⟩
       all_goals try rcases vaStep_error ‹_› with ⟨s, hv, hs, rfl⟩ | ⟨hv, hs, rfl⟩
       all_goals simp [evConfig, evPolicy, evPeers, evCore, evAssembled, raiOf] at h)


/-- Once line 135 is reached exactly one resolver constructor is called, the
one the loopback flag selects, with the parsed timeout, the single configured
server and the clamped budget; without a descriptor the legacy Validation
constructor was called. -/
theorem resolver_call_facts (w : World) (c : Config)
    (hc : w.readJSONFile w.configFile = Except.ok c)
    (h : Event.newStatsdScope ∈ (main w).trace) :
    ∃ timeout, w.parseDuration c.Common.DNSTimeout = Except.ok timeout ∧
      (c.Common.DNSAllowLoopbackAddresses = false →
        (main w).trace.filter Event.isResolverCtor =
          [Event.newDNSResolverImpl timeout [c.Common.DNSResolver] (dnsTriesOf c)]) ∧
      (c.Common.DNSAllowLoopbackAddresses = true →
        (main w).trace.filter Event.isResolverCtor =
          [Event.newTestDNSResolverImpl timeout [c.Common.DNSResolver] (dnsTriesOf c)]) ∧
      (c.RA.VAService = none →
        Event.newValidationAuthorityClient c.RA.AMQP true ∈ (main w).trace) := by
  have hp := main_path w
  revert h
  generalize main w = r at hp
  cases hp <;>
    (try simp only [CoreAssembled, PeersReady, PolicyReady, ConfigLoaded] at *) <;>
    (try casesm* _ ∧ _) <;>
    (try cases hc.symm.trans ‹w.readJSONFile w.configFile = Except.ok _›) <;>
    (try rcases vaStep_ok ‹_› with ⟨s, conn, hv, hs, rfl, rfl⟩ | ⟨hv, hs, rfl⟩) <;>
    (try rcases vaStep_error ‹_› with ⟨s, hv, hs, rfl⟩ | ⟨hv, hs, rfl⟩) <;>
    (try rcases resolverStep_cases ‹_› with ⟨hl, rfl⟩ | ⟨hl, rfl⟩) <;>
    first
    | (intro h; simp [evConfig, evPolicy, evPeers, evCore, evAssembled, raiOf] at h; done)
    | (intro _
       refine ⟨_, ‹w.parseDuration _ = _›, ?_, ?_, ?_⟩ <;>
       first
       | exact fun _ => rfl
       | exact fun hf => Bool.noConfusion (hl.symm.trans hf)
       | exact fun hn => Option.noConfusion (hv.symm.trans hn)
       | exact fun _ => by simp [evConfig, evPolicy, evPeers, evCore, evAssembled, raiOf])

/-- The call of `rpc.NewAmqpRPCServer` receives the configured broker and the
configured ceiling unchanged, and is made once. -/
theorem server_ctor_facts (w : World) (c : Config)
    (hc : w.readJSONFile w.configFile = Except.ok c)
    (amqp : AMQPConfig) (m : Int) (ok : Bool)
    (h : Event.newAmqpRPCServer amqp m ok ∈ (main w).trace) :
    m = c.RA.MaxConcurrentRPCServerRequests ∧ amqp = c.RA.AMQP ∧
    ok = isOk (w.newAmqpRPCServer c.RA.AMQP c.RA.MaxConcurrentRPCServerRequests
      (statsOf w c) (loggerOf w c)) ∧
    ((main w).trace.filter Event.isServerCtor).length = 1 := by
  have hp := main_path w
  revert h
  generalize main w = r at hp
  cases hp <;>
    (try simp only [CoreAssembled, PeersReady, PolicyReady, ConfigLoaded] at *) <;>
    (try casesm* _ ∧ _) <;>
    (try cases hc.symm.trans ‹w.readJSONFile w.configFile = Except.ok _›) <;>
    (try rcases vaStep_ok ‹_› with ⟨s, conn, hv, hs, rfl, rfl⟩ | ⟨hv, hs, rfl⟩) <;>
    (try rcases vaStep_error ‹_› with ⟨s, hv, hs, rfl⟩ | ⟨hv, hs, rfl⟩) <;>
    (try rcases resolverStep_cases ‹_› with ⟨hl, rfl⟩ | ⟨hl, rfl⟩) <;>
    first
    | (intro h; simp [evConfig, evPolicy, evPeers, evCore, evAssembled, raiOf] at h; done)
    | (intro h
       simp [evConfig, evPolicy, evPeers, evCore, evAssembled, raiOf] at h
       obtain ⟨rfl, rfl, rfl⟩ := h
       exact ⟨rfl, rfl, by simp [*, isOk], rfl⟩)

/-- The server started is the one `rpc.NewAmqpRPCServer` returned, and the RA
core was registered with it, successfully, before the start. -/
theorem start_call_facts (w : World) (c : Config)
    (hc : w.readJSONFile w.configFile = Except.ok c)
    (ras : AmqpRPCServer) (b : Bool) (h : Event.start ras b ∈ (main w).trace) :
    w.newAmqpRPCServer c.RA.AMQP c.RA.MaxConcurrentRPCServerRequests (statsOf w c)
      (loggerOf w c) = Except.ok ras ∧
    (∃ rai, Event.newRegistrationAuthorityServer ras rai true ∈ (main w).trace ∧
      rai.id = raiIdOf w c) ∧
    allBefore Event.isRegister Event.isStart (main w).trace = true := by
  have hp := main_path w
  revert h
  generalize main w = r at hp
  cases hp <;>
    (try simp only [CoreAssembled, PeersReady, PolicyReady, ConfigLoaded] at *) <;>
    (try casesm* _ ∧ _) <;>
    (try cases hc.symm.trans ‹w.readJSONFile w.configFile = Except.ok _›) <;>
    (try rcases vaStep_ok ‹_› with ⟨s, conn, hv, hs, rfl, rfl⟩ | ⟨hv, hs, rfl⟩) <;>
    (try rcases vaStep_error ‹_› with ⟨s, hv, hs, rfl⟩ | ⟨hv, hs, rfl⟩) <;>
    (try rcases resolverStep_cases ‹_› with ⟨hl, rfl⟩ | ⟨hl, rfl⟩) <;>
    first
    | (intro h; simp [evConfig, evPolicy, evPeers, evCore, evAssembled, raiOf] at h; done)
    | (intro h
       simp [evConfig, evPolicy, evPeers, evCore, evAssembled, raiOf] at h
       obtain ⟨rfl, rfl⟩ := h
       exact ⟨‹_›, ⟨_, List.mem_append_right _ (List.Mem.tail _ (List.Mem.head _)), rfl⟩, rfl⟩)


/-- The steps a run executes, with their recorded results, are the fail-fast
run of the outcomes the world assigns. -/
theorem steps_eq_failFastRun (w : World) (h0 : w.configFile ≠ "") :
    steps (main w) = failFastRun (outcomes w) stepOrder := by
  have hp := main_path w
  generalize main w = r at hp
  cases hp <;>
    (try simp only [CoreAssembled, PeersReady, PolicyReady, ConfigLoaded] at *) <;>
    (try casesm* _ ∧ _) <;>
    (try rcases vaStep_ok ‹_› with ⟨s, conn, hv, hs, rfl, rfl⟩ | ⟨hv, hs, rfl⟩) <;>
    (try rcases vaStep_error ‹_› with ⟨s, hv, hs, rfl⟩ | ⟨hv, hs, rfl⟩) <;>
    (try rcases resolverStep_cases ‹_› with ⟨hl, rfl⟩ | ⟨hl, rfl⟩) <;>
    first
    | exact absurd ‹w.configFile = ""› h0
    | (simp only [steps, evConfig, evPolicy, evPeers, evCore, evAssembled,
        List.cons_append, List.nil_append, List.append_assoc, List.filterMap_cons,
        List.filterMap_nil, Event.step]
       simp [*, stepOrder, failFastRun, outcomes, raiAt, isOk, Except.toOption])

/-- With no configuration file named, `main` prints the usage and exits: no
step is executed. -/
theorem usage_exit_run (w : World) (h0 : w.configFile = "") :
    (main w).trace = [Event.usage] ∧ (main w).outcome = Outcome.usageExit := by
  have hp := main_path w
  generalize main w = r at hp
  cases hp <;>
    (try simp only [CoreAssembled, PeersReady, PolicyReady, ConfigLoaded] at *) <;>
    (try casesm* _ ∧ _) <;>
    first
    | exact ⟨rfl, rfl⟩
    | exact ⟨trivial, trivial⟩
    | exact absurd h0 ‹_›

/-- The step `start` is recorded exactly for the calls of `ras.Start`. -/
theorem mem_steps_start (r : Run) (b : Bool) :
    (Step.start, b) ∈ steps r ↔ ∃ ras, Event.start ras b ∈ r.trace := by
  unfold steps
  rw [List.mem_filterMap]
  constructor
  · rintro ⟨e, he, hst⟩
    cases e <;> simp [Event.step] at hst
    obtain rfl := hst
    exact ⟨_, he⟩
  · rintro ⟨ras, he⟩
    exact ⟨_, he, rfl⟩

/-- While the outcomes are successes the fail-fast run goes on. -/
theorem failFastRun_append (o : Step → Option Bool) (l1 l2 : List Step)
    (h : ∀ s ∈ l1, o s = some true) :
    failFastRun o (l1 ++ l2) = l1.map (fun s => (s, true)) ++ failFastRun o l2 := by
  induction l1 with
  | nil => rfl
  | cons x l1 ih =>
    have hx : o x = some true := h x (List.mem_cons_self _ _)
    have ih2 := ih (fun s hs => h s (List.mem_cons_of_mem _ hs))
    simp [failFastRun, hx, ih2]

/-- A step that occurs in a fail-fast run was preceded by successes only. -/
theorem mem_failFastRun_append (o : Step → Option Bool) (l1 l2 : List Step) (st : Step)
    (b : Bool) (hmem : (st, b) ∈ failFastRun o (l1 ++ l2)) (hn : st ∉ l1) :
    (∀ s ∈ l1, o s = some true) ∧ (st, b) ∈ failFastRun o l2 := by
  induction l1 with
  | nil => exact ⟨fun s hs => absurd hs (List.not_mem_nil s), hmem⟩
  | cons x l1 ih =>
    have hne : st ≠ x := fun h => hn (h ▸ List.mem_cons_self _ _)
    have hn1 : st ∉ l1 := fun h => hn (List.mem_cons_of_mem _ h)
    rw [List.cons_append] at hmem
    unfold failFastRun at hmem
    cases hx : o x with
    | none => simp [hx] at hmem
    | some v =>
      cases v with
      | false =>
        simp [hx] at hmem
        exact absurd hmem.1 hne
      | true =>
        simp only [hx, List.mem_cons, Prod.mk.injEq] at hmem
        rcases hmem with ⟨h1, -⟩ | hmem
        · exact absurd h1 hne
        · obtain ⟨ha, hb⟩ := ih hmem hn1
          refine ⟨fun s hs => ?_, hb⟩
          rcases List.mem_cons.mp hs with rfl | hs
          · exact hx
          · exact ha s hs

/-- The fail-fast run up to the first failing step. -/
theorem failFastRun_first_failure (o : Step → Option Bool) (l : List Step) (st : Step)
    (hmem : st ∈ l) (hf : o st = some false)
    (hpre : ∀ s ∈ l.takeWhile (fun x => decide (x ≠ st)), o s = some true) :
    failFastRun o l =
      (l.takeWhile (fun x => decide (x ≠ st))).map (fun s => (s, true)) ++ [(st, false)] := by
  induction l with
  | nil => exact absurd hmem (List.not_mem_nil st)
  | cons x l ih =>
    by_cases hx : x = st
    · subst hx
      simp [failFastRun, hf, List.takeWhile]
    · have htw : (x :: l).takeWhile (fun y => decide (y ≠ st)) =
          x :: l.takeWhile (fun y => decide (y ≠ st)) := by
        simp [List.takeWhile, hx]
      rw [htw] at hpre ⊢
      have hox : o x = some true := hpre x (List.mem_cons_self _ _)
      have hml : st ∈ l := by
        rcases List.mem_cons.mp hmem with h | h
        · exact absurd h.symm hx
        · exact h
      have := ih hml (fun s hs => hpre s (List.mem_cons_of_mem _ hs))
      simp [failFastRun, hox, this]

/-- When the configuration is read and the inbound server is created, the
call of `ras.Start` has its arguments. -/
theorem start_outcome_defined (w : World)
    (h1 : outcomes w Step.configRead = some true)
    (h2 : outcomes w Step.rpcServerNew = some true) :
    ∃ b, outcomes w Step.start = some b := by
  cases hr : w.readJSONFile w.configFile with
  | error e => simp [outcomes, hr, isOk] at h1
  | ok c =>
    cases hs : w.newAmqpRPCServer c.RA.AMQP c.RA.MaxConcurrentRPCServerRequests
        (statsOf w c) (loggerOf w c) with
    | error e => simp [outcomes, hr, hs, isOk, Except.toOption] at h2
    | ok ras => exact ⟨(w.start ras c.RA.AMQP).isNone, by simp [outcomes, hr, hs, Except.toOption]⟩

/-- The configuration read is the first step of every run that has a
configuration file named. -/
theorem config_read_attempted (w : World) (h0 : w.configFile ≠ "") :
    ∃ b, (steps (main w)).head? = some (Step.configRead, b) := by
  have hp := main_path w
  generalize main w = r at hp
  cases hp <;>
    (try simp only [CoreAssembled, PeersReady, PolicyReady, ConfigLoaded] at *) <;>
    (try casesm* _ ∧ _) <;>
    first
    | exact absurd ‹w.configFile = ""› h0
    | exact ⟨_, rfl⟩

/-- The field `rai.VA` at the registration call holds the client of the
transport the descriptor selects. -/
theorem register_va_field (w : World) (c : Config)
    (hc : w.readJSONFile w.configFile = Except.ok c)
    (ras : AmqpRPCServer) (rai : RegistrationAuthorityImpl) (ok : Bool)
    (h : Event.newRegistrationAuthorityServer ras rai ok ∈ (main w).trace) :
    (∀ s, c.RA.VAService = some s → ∃ conn, w.clientSetup s = Except.ok conn ∧
      rai.VA = some (w.newValidationAuthorityGRPCClient conn)) ∧
    (c.RA.VAService = none → ∃ vac,
      w.newValidationAuthorityClient clientName c.RA.AMQP (statsOf w c) = Except.ok vac ∧
      rai.VA = some vac) := by
  have hf := (register_call_facts w c hc ras rai ok h).2.2.1
  constructor
  · intro s hs
    cases hcs : w.clientSetup s with
    | ok conn =>
      refine ⟨conn, rfl, ?_⟩
      simpa [vaStep, hs, hcs, Except.toOption] using hf.1
    | error e =>
      have := hf.2
      simp [hf.1, vaStep, hs, hcs, Except.toOption] at this
  · intro hn
    cases hcs : w.newValidationAuthorityClient clientName c.RA.AMQP (statsOf w c) with
    | ok vac =>
      refine ⟨vac, rfl, ?_⟩
      simpa [vaStep, hn, hcs, Except.toOption] using hf.1
    | error e =>
      have := hf.2
      simp [hf.1, vaStep, hn, hcs, Except.toOption] at this

/-- A result whose option view is defined is a success. -/
theorem ok_of_toOption_isSome {α : Type} {r : Except Err α} {o : Option α}
    (h1 : o = r.toOption) (h2 : o.isSome = true) : ∃ a, r = Except.ok a ∧ o = some a := by
  cases r with
  | error e => simp [h1, Except.toOption] at h2
  | ok a => exact ⟨a, rfl, by simp [h1, Except.toOption]⟩

/-- A failed outcome carries a message and an error. -/
theorem failed_of_isFailed {o : Outcome} (h : o.isFailed = true) :
    ∃ msg err, o = Outcome.failed msg err := by
  cases o with
  | usageExit => simp [Outcome.isFailed] at h
  | failed msg err => exact ⟨msg, err, rfl⟩
  | served => simp [Outcome.isFailed] at h

/-- An outcome that is not served is different from `served`. -/
theorem ne_served_of_isServed {o : Outcome} (h : o.isServed = false) : o ≠ Outcome.served := by
  intro ho
  simp [ho, Outcome.isServed] at h

/-- What holds of every fail-fast shape. -/
theorem failFastShapes_spec : ∀ sh ∈ failFastShapes,
    ((∃ b, (Step.start, b) ∈ sh.1) ↔
      ∀ st ∈ stepOrder, st ≠ Step.start → (st, true) ∈ sh.1) ∧
    (sh.1.map Prod.fst <+: stepOrder) ∧
    (sh.1.map Prod.fst).Nodup ∧
    (∀ p ∈ sh.1.dropLast, p.2 = true) ∧
    ((∃ p ∈ sh.1, p.2 = false) ↔ sh.2.1 = true) ∧
    (sh.2.2 = true ↔ (Step.start, true) ∈ sh.1) ∧
    (sh.1 ≠ [] → sh.2.1 = false → sh.2.2 = true) := by
  decide

/-- In the world `w0` the assignment of outcomes is success for every step. -/
theorem outcomes_w0 : w0.configFile ≠ "" ∧ ∀ st ∈ stepOrder, outcomes w0 st = some true := by
  decide

/-- In the world `wBadTimeout` the timeout parse is the first step that fails. -/
theorem outcomes_wBadTimeout :
    wBadTimeout.configFile ≠ "" ∧ outcomes wBadTimeout Step.dnsTimeoutParse = some false ∧
    ∀ s ∈ stepOrder.takeWhile (fun x => decide (x ≠ Step.dnsTimeoutParse)),
      outcomes wBadTimeout s = some true := by
  decide

/-! ## Claims -/

/-- C1: the retry budget `main` passes to either DNS resolver constructor is
`max n 1` for the configured `RA.DNSTries = n`: it is 1 whenever `n ≤ 0`, it is
`n` whenever `n ≥ 1`, and it is never below 1. -/
theorem retry_budget_clamped (w : World) (c : Config)
    (hc : w.readJSONFile w.configFile = Except.ok c)
    (timeout : Duration) (servers : List String) (tries : Int)
    (h : Event.newDNSResolverImpl timeout servers tries ∈ (main w).trace ∨
      Event.newTestDNSResolverImpl timeout servers tries ∈ (main w).trace) :
    tries = max c.RA.DNSTries 1 ∧ (c.RA.DNSTries ≤ 0 → tries = 1) ∧
      (1 ≤ c.RA.DNSTries → tries = c.RA.DNSTries) ∧ 1 ≤ tries := by
  have key := resolver_call_tries w c hc timeout servers tries h
  rw [dnsTriesOf_eq_max] at key
  subst key
  refine ⟨rfl, ?_, ?_, ?_⟩ <;> omega

/-- Witness of C1 on the world `w0`, whose configuration has `DNSTries = 0`. -/
theorem retry_budget_clamped_witness :
    w0.readJSONFile w0.configFile = Except.ok cfg0 ∧
    Event.newDNSResolverImpl 10000000000 ["127.0.0.1:8053"] 1 ∈ (main w0).trace ∧
    ((1 : Int) = max cfg0.RA.DNSTries 1 ∧ (cfg0.RA.DNSTries ≤ 0 → (1 : Int) = 1) ∧
      (1 ≤ cfg0.RA.DNSTries → (1 : Int) = cfg0.RA.DNSTries) ∧ (1 : Int) ≤ 1) :=
  ⟨rfl, by decide,
    retry_budget_clamped w0 cfg0 rfl 10000000000 ["127.0.0.1:8053"] 1 (Or.inl (by decide))⟩

/-- C2: the Validation client is built over the modern (gRPC) transport exactly
when `RA.VAService` is present and over the legacy (AMQP) transport exactly when
it is absent. A modern call is made only with the descriptor present, a legacy
call only with it absent, never both in one run; once the block is reached
(`cmd.ProfileCmd` is launched just before it) the path taken is decided by
presence alone; the client stored in `rai.VA` is the one of that path; and when
the descriptor is present and the connection setup fails, startup fails with no
legacy call. -/
theorem va_transport_by_presence (w : World) (c : Config)
    (hc : w.readJSONFile w.configFile = Except.ok c) :
    (∀ e ∈ (main w).trace, e.isModernVA = true → c.RA.VAService ≠ none) ∧
    (∀ e ∈ (main w).trace, e.isLegacyVA = true → c.RA.VAService = none) ∧
    ¬ ((∃ e ∈ (main w).trace, e.isModernVA = true) ∧
        (∃ e ∈ (main w).trace, e.isLegacyVA = true)) ∧
    (Event.profileCmd ∈ (main w).trace →
      ((∃ e ∈ (main w).trace, e.isModernVA = true) ↔ c.RA.VAService ≠ none) ∧
      ((∃ e ∈ (main w).trace, e.isLegacyVA = true) ↔ c.RA.VAService = none)) ∧
    (∀ ras rai ok, Event.newRegistrationAuthorityServer ras rai ok ∈ (main w).trace →
      (∀ s, c.RA.VAService = some s → ∃ conn, w.clientSetup s = Except.ok conn ∧
        rai.VA = some (w.newValidationAuthorityGRPCClient conn)) ∧
      (c.RA.VAService = none → ∃ vac,
        w.newValidationAuthorityClient clientName c.RA.AMQP (statsOf w c) = Except.ok vac ∧
        rai.VA = some vac)) ∧
    (∀ s err, c.RA.VAService = some s → w.clientSetup s = Except.error err →
      Event.profileCmd ∈ (main w).trace →
      (main w).outcome = Outcome.failed "Unable to create VA client" err ∧
      ∀ e ∈ (main w).trace, e.isLegacyVA = false) := by
  have h1 : ∀ e ∈ (main w).trace, e.isModernVA = true → c.RA.VAService ≠ none := by
    intro e he hme
    rcases modern_needs_descriptor w c hc with hall | hne
    · have := List.all_eq_true.mp hall e he
      simp [hme] at this
    · exact hne
  have h2 : ∀ e ∈ (main w).trace, e.isLegacyVA = true → c.RA.VAService = none := by
    intro e he hle
    rcases legacy_needs_no_descriptor w c hc with hall | hn
    · have := List.all_eq_true.mp hall e he
      simp [hle] at this
    · exact hn
  refine ⟨h1, h2, ?_, ?_, ?_, ?_⟩
  · rintro ⟨⟨e1, he1, hm1⟩, ⟨e2, he2, hl2⟩⟩
    exact h1 e1 he1 hm1 (h2 e2 he2 hl2)
  · intro hpc
    rcases va_block_reached w c hc hpc with ⟨hne, hany⟩ | ⟨hn, hany⟩
    · obtain ⟨e, he, hme⟩ := List.any_eq_true.mp hany
      exact ⟨⟨fun _ => hne, fun _ => ⟨e, he, hme⟩⟩,
        ⟨fun ⟨e2, he2, hl2⟩ => h2 e2 he2 hl2, fun hn => absurd hn hne⟩⟩
    · obtain ⟨e, he, hle⟩ := List.any_eq_true.mp hany
      exact ⟨⟨fun ⟨e2, he2, hm2⟩ => h1 e2 he2 hm2, fun hne => absurd hn hne⟩,
        ⟨fun _ => hn, fun _ => ⟨e, he, hle⟩⟩⟩
  · exact fun ras rai ok hreg => register_va_field w c hc ras rai ok hreg
  · intro s err hs he hpc
    refine ⟨modern_setup_failure w c hc s err hs he hpc, fun e hmem => ?_⟩
    cases hle : e.isLegacyVA with
    | false => rfl
    | true =>
      have := h2 e hmem hle
      simp [hs] at this

/-- Witness of C2 on the world `wGRPC`, whose configuration has a `VAService`. -/
theorem va_transport_by_presence_witness :
    wGRPC.readJSONFile wGRPC.configFile = Except.ok cfgGRPC ∧
    Event.clientSetup ⟨"va.boulder:9092"⟩ true ∈ (main wGRPC).trace ∧
    (∀ e ∈ (main wGRPC).trace, e.isLegacyVA = true → cfgGRPC.RA.VAService = none) :=
  ⟨rfl, by decide, (va_transport_by_presence wGRPC cfgGRPC rfl).2.1⟩

/-- C3: when the configuration has an empty `RA.HostnamePolicyFile`, whatever
the earlier steps return, startup does not reach serving; it ends in the fatal
exit whenever a configuration file was named, with the message of line 95 when
the earlier steps succeeded; and no peer client constructor, no resolver
constructor, not the RA core constructor and no call on the inbound server
(constructor, registration, start) is made. -/
theorem empty_hostname_policy_is_fatal (w : World)
    (h : ∀ c, w.readJSONFile w.configFile = Except.ok c → c.RA.HostnamePolicyFile = "") :
    (main w).outcome ≠ Outcome.served ∧
    (w.configFile ≠ "" → ∃ msg err, (main w).outcome = Outcome.failed msg err) ∧
    (∀ c pa, w.configFile ≠ "" → w.readJSONFile w.configFile = Except.ok c →
      w.checkChallenges c.PA = none → w.policyNew c.PA.Challenges = Except.ok pa →
      (main w).outcome = Outcome.failed "" "HostnamePolicyFile must be provided.") ∧
    ∀ e ∈ (main w).trace, e.isPeerCtor = false ∧ e.isResolverCtor = false ∧
      e.isCoreCtor = false ∧ e.isServer = false := by
  obtain ⟨hs, hf, hall⟩ := hostname_policy_missing_facts w h
  exact ⟨ne_served_of_isServed hs, fun h0 => failed_of_isFailed (hf h0),
    fun c pa h0 hc h2 h3 => hostname_policy_missing_message w c pa h0 hc h2 h3 (h c hc),
    no_wiring_of_all hall⟩

/-- Witness of C3 on the world `wNoPolicyFile`. -/
theorem empty_hostname_policy_is_fatal_witness :
    cfgNoPolicyFile.RA.HostnamePolicyFile = "" ∧
    (main wNoPolicyFile).outcome ≠ Outcome.served :=
  ⟨rfl, (empty_hostname_policy_is_fatal wNoPolicyFile (fun c hc => by
    have hcc : cfgNoPolicyFile = c := Except.ok.inj hc
    rw [← hcc]; rfl)).1⟩

/-- C4: with each fallible step given the outcome the world assigns to it
(`outcomes w`: the result of that step's call at the arguments `main` passes),
for every world: (1) the steps `main` executes, with the results it records,
are the fail-fast run of that assignment over the source order; (2) with no
configuration file named no step is executed; (3) `ras.Start` is invoked if and
only if a configuration file is named and every one of the twelve preceding
steps succeeds; (4) when a step fails and all steps before it succeed, exactly
the steps up to it are executed, each once, and the run ends in the fatal exit;
(5) when all thirteen succeed, all are executed and the run reaches serving.
The remaining parts state the same on the trace alone: the executed steps are
an initial segment of the source order without repetition, every executed step
but the last succeeded, the run is fatal exactly when a recorded step failed
and served exactly when `Start` succeeded. -/
theorem startup_fail_fast (w : World) :
    (w.configFile ≠ "" → steps (main w) = failFastRun (outcomes w) stepOrder) ∧
    (w.configFile = "" →
      (main w).trace = [Event.usage] ∧ (main w).outcome = Outcome.usageExit) ∧
    ((∃ ras b, Event.start ras b ∈ (main w).trace) ↔
      w.configFile ≠ "" ∧ ∀ st ∈ stepOrder, st ≠ Step.start → outcomes w st = some true) ∧
    (∀ st ∈ stepOrder, w.configFile ≠ "" → outcomes w st = some false →
      (∀ s ∈ stepOrder.takeWhile (fun x => decide (x ≠ st)), outcomes w s = some true) →
      steps (main w) =
        (stepOrder.takeWhile (fun x => decide (x ≠ st))).map (fun s => (s, true)) ++
          [(st, false)] ∧
      (main w).outcome.isFailed = true) ∧
    (w.configFile ≠ "" → (∀ st ∈ stepOrder, outcomes w st = some true) →
      steps (main w) = stepOrder.map (fun s => (s, true)) ∧
      (main w).outcome.isServed = true) ∧
    ((∃ b, (Step.start, b) ∈ steps (main w)) ↔
      ∀ st ∈ stepOrder, st ≠ Step.start → (st, true) ∈ steps (main w)) ∧
    ((steps (main w)).map Prod.fst <+: stepOrder) ∧
    ((steps (main w)).map Prod.fst).Nodup ∧
    (∀ p ∈ (steps (main w)).dropLast, p.2 = true) ∧
    ((∃ p ∈ steps (main w), p.2 = false) ↔ (main w).outcome.isFailed = true) ∧
    ((main w).outcome.isServed = true ↔ (Step.start, true) ∈ steps (main w)) ∧
    (steps (main w) ≠ [] → (main w).outcome.isFailed = false →
      (main w).outcome.isServed = true) ∧
    (w.configFile ≠ "" → ∃ b, (steps (main w)).head? = some (Step.configRead, b)) := by
  obtain ⟨h1, h2, h3, h4, h5, h6, h7⟩ :=
    failFastShapes_spec (stepShape (main w)) (stepShape_mem w)
  have hsplit : stepOrder = stepOrder.dropLast ++ [Step.start] := by decide
  have hpre : ∀ st, st ∈ stepOrder.dropLast ↔ st ∈ stepOrder ∧ st ≠ Step.start := by
    intro st
    cases st <;> decide
  refine ⟨steps_eq_failFastRun w, usage_exit_run w, ?_, ?_, ?_, h1, h2, h3, h4, h5, h6, h7,
    config_read_attempted w⟩
  · constructor
    · rintro ⟨ras, b, hev⟩
      have h0 : w.configFile ≠ "" := by
        intro h0
        rw [(usage_exit_run w h0).1] at hev
        simp at hev
      have hst : (Step.start, b) ∈ steps (main w) := (mem_steps_start _ _).mpr ⟨ras, hev⟩
      rw [steps_eq_failFastRun w h0, hsplit] at hst
      have := (mem_failFastRun_append (outcomes w) _ _ Step.start b hst (by decide)).1
      exact ⟨h0, fun st hm hne => this st ((hpre st).mpr ⟨hm, hne⟩)⟩
    · rintro ⟨h0, hall⟩
      obtain ⟨b, hb⟩ := start_outcome_defined w
        (hall Step.configRead (by decide) (by decide))
        (hall Step.rpcServerNew (by decide) (by decide))
      have hrun := steps_eq_failFastRun w h0
      rw [hsplit, failFastRun_append (outcomes w) _ _
        (fun s hs => hall s ((hpre s).mp hs).1 ((hpre s).mp hs).2)] at hrun
      have hmem : (Step.start, b) ∈ steps (main w) := by
        rw [hrun]
        cases b <;> simp [failFastRun, hb]
      obtain ⟨ras, hev⟩ := (mem_steps_start _ _).mp hmem
      exact ⟨ras, b, hev⟩
  · intro st hm h0 hf hbefore
    have hrun := steps_eq_failFastRun w h0
    rw [failFastRun_first_failure (outcomes w) stepOrder st hm hf hbefore] at hrun
    refine ⟨hrun, h5.mp ⟨(st, false), ?_, rfl⟩⟩
    show (st, false) ∈ steps (main w)
    rw [hrun]
    simp
  · intro h0 hall
    have hrun := steps_eq_failFastRun w h0
    have happ := failFastRun_append (outcomes w) stepOrder [] hall
    rw [List.append_nil] at happ
    rw [happ] at hrun
    simp only [failFastRun, List.append_nil] at hrun
    refine ⟨hrun, h6.mpr ?_⟩
    show (Step.start, true) ∈ steps (main w)
    rw [hrun]
    decide

/-- C7 (amended): in every run that reaches serving the calls are made in the
order of the source: the policy engine first, then the three peer clients,
then the RA core constructor, then the DNS resolver, then (all five fields
assigned) the inbound server constructor, the registration and the start. The
DNS resolver is constructed after every peer client and after the RA core
constructor, and before the inbound server. -/
theorem startup_order_when_served (w : World) (h : (main w).outcome = Outcome.served) :
    allBefore Event.isPolicyCtor Event.isPeerCtor (main w).trace = true ∧
    allBefore Event.isPeerCtor Event.isCoreCtor (main w).trace = true ∧
    allBefore Event.isCoreCtor Event.isResolverCtor (main w).trace = true ∧
    allBefore Event.isResolverCtor Event.isServerCtor (main w).trace = true ∧
    allBefore Event.isAssign Event.isServerCtor (main w).trace = true ∧
    allBefore Event.isServerCtor Event.isRegister (main w).trace = true ∧
    allBefore Event.isRegister Event.isStart (main w).trace = true := by
  have hp := main_path w
  revert h
  generalize main w = r at hp
  cases hp <;>
    (try simp only [CoreAssembled, PeersReady, PolicyReady, ConfigLoaded] at *) <;>
    (try casesm* _ ∧ _) <;>
    (try rcases vaStep_ok ‹_› with ⟨s, conn, hv, hs, rfl, rfl⟩ | ⟨hv, hs, rfl⟩) <;>
    (try rcases vaStep_error ‹_› with ⟨s, hv, hs, rfl⟩ | ⟨hv, hs, rfl⟩) <;>
    (try rcases resolverStep_cases ‹_› with ⟨hl, rfl⟩ | ⟨hl, rfl⟩) <;>
    first
    | exact fun h => Outcome.noConfusion h
    | exact fun _ => ⟨rfl, rfl, rfl, rfl, rfl, rfl, rfl⟩


/-- Witness of C7 (amended) on the world `w0`, which reaches serving. -/
theorem startup_order_when_served_witness :
    (main w0).outcome = Outcome.served ∧
    allBefore Event.isPeerCtor Event.isCoreCtor (main w0).trace = true ∧
    allBefore Event.isCoreCtor Event.isResolverCtor (main w0).trace = true :=
  ⟨by decide, (startup_order_when_served w0 (by decide)).2.1,
    (startup_order_when_served w0 (by decide)).2.2.1⟩

/-- C7 fails as stated: the run of `w0` reaches serving, yet the DNS resolver is
not constructed before the peer clients nor before the RA core constructor; it
is constructed after them. -/
theorem resolver_constructed_after_peers_and_core :
    (main w0).outcome = Outcome.served ∧
    allBefore Event.isResolverCtor Event.isPeerCtor (main w0).trace = false ∧
    allBefore Event.isResolverCtor Event.isCoreCtor (main w0).trace = false ∧
    allBefore Event.isPeerCtor Event.isResolverCtor (main w0).trace = true ∧
    allBefore Event.isCoreCtor Event.isResolverCtor (main w0).trace = true := by
  decide

/-- C5: at every call of `rpc.NewRegistrationAuthorityServer` the handle `rai`
has its five fields set: `PA` is the policy engine `policy.New` returned for the
configured challenges, `DNSResolver` is the resolver of the variant the loopback
flag selects (built with the parsed timeout, the configured server and the
clamped budget), `VA`, `CA` and `SA` are the clients the three peer
constructions returned; and each of the five assignments occurs before that
call and none after it. -/
theorem handle_complete_before_exposure (w : World) (c : Config)
    (hc : w.readJSONFile w.configFile = Except.ok c)
    (ras : AmqpRPCServer) (rai : RegistrationAuthorityImpl) (ok : Bool)
    (h : Event.newRegistrationAuthorityServer ras rai ok ∈ (main w).trace) :
    (∃ pa, w.policyNew c.PA.Challenges = Except.ok pa ∧ rai.PA = some pa) ∧
    (∃ timeout, w.parseDuration c.Common.DNSTimeout = Except.ok timeout ∧
      rai.DNSResolver = some
        (if c.Common.DNSAllowLoopbackAddresses = true then
          w.newTestDNSResolverImpl timeout [c.Common.DNSResolver]
            (w.newStatsdScope (statsOf w c) ["RA", "DNS"]) w.clockDefault
            (max c.RA.DNSTries 1)
        else
          w.newDNSResolverImpl timeout [c.Common.DNSResolver]
            (w.newStatsdScope (statsOf w c) ["RA", "DNS"]) w.clockDefault
            (max c.RA.DNSTries 1))) ∧
    ((∀ s, c.RA.VAService = some s → ∃ conn, w.clientSetup s = Except.ok conn ∧
        rai.VA = some (w.newValidationAuthorityGRPCClient conn)) ∧
      (c.RA.VAService = none → ∃ vac,
        w.newValidationAuthorityClient clientName c.RA.AMQP (statsOf w c) = Except.ok vac ∧
        rai.VA = some vac)) ∧
    (∃ cac, w.newCertificateAuthorityClient clientName c.RA.AMQP (statsOf w c) =
      Except.ok cac ∧ rai.CA = some cac) ∧
    (∃ sac, w.newStorageAuthorityClient clientName c.RA.AMQP (statsOf w c) =
      Except.ok sac ∧ rai.SA = some sac) ∧
    ∀ f, allBefore (Event.assigns f) Event.isRegister (main w).trace = true := by
  obtain ⟨hpa, hdns, -, hca, hsa, -, -, horder⟩ := register_call_facts w c hc ras rai ok h
  refine ⟨ok_of_toOption_isSome hpa.1 hpa.2, ?_, register_va_field w c hc ras rai ok h,
    ok_of_toOption_isSome hca.1 hca.2, ok_of_toOption_isSome hsa.1 hsa.2, horder⟩
  cases hto : w.parseDuration c.Common.DNSTimeout with
  | error e =>
    have := hdns.2
    simp [hdns.1, hto, Except.toOption] at this
  | ok timeout =>
    refine ⟨timeout, rfl, ?_⟩
    rw [hdns.1, hto]
    cases hl : c.Common.DNSAllowLoopbackAddresses <;>
      simp [Except.toOption, resolverStep, hl, dnsTriesOf_eq_max]

/-- Witness of C5 on the world `w0`. -/
theorem handle_complete_before_exposure_witness :
    Event.newRegistrationAuthorityServer ⟨10⟩
      { id := 7, PA := some ⟨1⟩, DNSResolver := some ⟨101⟩, VA := some ⟨4⟩,
        CA := some ⟨5⟩, SA := some ⟨6⟩ } true ∈ (main w0).trace ∧
    ∀ f, allBefore (Event.assigns f) Event.isRegister (main w0).trace = true :=
  ⟨by decide, (handle_complete_before_exposure w0 cfg0 rfl ⟨10⟩
      { id := 7, PA := some ⟨1⟩, DNSResolver := some ⟨101⟩, VA := some ⟨4⟩,
        CA := some ⟨5⟩, SA := some ⟨6⟩ } true (by decide)).2.2.2.2.2⟩

/-- C6: once resolver construction is reached (line 135), exactly one resolver
constructor is called: the production one if and only if
`Common.DNSAllowLoopbackAddresses` is false, the test one if and only if it is
true; either receives the parsed timeout, the one-element server list
`[Common.DNSResolver]` and the clamped retry budget. With `DNSTries = 0`, the
flag false and no `VAService`, the production variant is built with budget 1
and the Validation client over the legacy transport. -/
theorem resolver_variant_by_loopback_flag (w : World) (c : Config)
    (hc : w.readJSONFile w.configFile = Except.ok c)
    (h : Event.newStatsdScope ∈ (main w).trace) :
    ∃ timeout, w.parseDuration c.Common.DNSTimeout = Except.ok timeout ∧
      (c.Common.DNSAllowLoopbackAddresses = false →
        (main w).trace.filter Event.isResolverCtor =
          [Event.newDNSResolverImpl timeout [c.Common.DNSResolver] (max c.RA.DNSTries 1)]) ∧
      (c.Common.DNSAllowLoopbackAddresses = true →
        (main w).trace.filter Event.isResolverCtor =
          [Event.newTestDNSResolverImpl timeout [c.Common.DNSResolver]
            (max c.RA.DNSTries 1)]) ∧
      (c.RA.DNSTries = 0 → c.Common.DNSAllowLoopbackAddresses = false →
        c.RA.VAService = none →
        Event.newDNSResolverImpl timeout [c.Common.DNSResolver] 1 ∈ (main w).trace ∧
        Event.newValidationAuthorityClient c.RA.AMQP true ∈ (main w).trace ∧
        ∀ e ∈ (main w).trace, e.isModernVA = false) := by
  obtain ⟨timeout, hto, hprod, htest, hleg⟩ := resolver_call_facts w c hc h
  rw [dnsTriesOf_eq_max] at hprod htest
  refine ⟨timeout, hto, hprod, htest, fun h0 hl hn => ⟨?_, hleg hn, fun e he => ?_⟩⟩
  · have hmem : Event.newDNSResolverImpl timeout [c.Common.DNSResolver]
        (max c.RA.DNSTries 1) ∈ (main w).trace.filter Event.isResolverCtor := by
      rw [hprod hl]
      exact List.mem_singleton.mpr rfl
    have := (List.mem_filter.mp hmem).1
    simpa [h0] using this
  · rcases modern_needs_descriptor w c hc with hall | hne
    · have := List.all_eq_true.mp hall e he
      simpa using this
    · exact absurd hn hne

/-- Witness of C6 on the world `w0`: `DNSTries = 0`, no loopback, no
`VAService`. -/
theorem resolver_variant_by_loopback_flag_witness :
    cfg0.RA.DNSTries = 0 ∧ cfg0.Common.DNSAllowLoopbackAddresses = false ∧
    cfg0.RA.VAService = none ∧
    ∃ timeout, w0.parseDuration cfg0.Common.DNSTimeout = Except.ok timeout ∧
      (cfg0.Common.DNSAllowLoopbackAddresses = false →
        (main w0).trace.filter Event.isResolverCtor =
          [Event.newDNSResolverImpl timeout [cfg0.Common.DNSResolver]
            (max cfg0.RA.DNSTries 1)]) ∧
      (cfg0.Common.DNSAllowLoopbackAddresses = true →
        (main w0).trace.filter Event.isResolverCtor =
          [Event.newTestDNSResolverImpl timeout [cfg0.Common.DNSResolver]
            (max cfg0.RA.DNSTries 1)]) ∧
      (cfg0.RA.DNSTries = 0 → cfg0.Common.DNSAllowLoopbackAddresses = false →
        cfg0.RA.VAService = none →
        Event.newDNSResolverImpl timeout [cfg0.Common.DNSResolver] 1 ∈ (main w0).trace ∧
        Event.newValidationAuthorityClient cfg0.RA.AMQP true ∈ (main w0).trace ∧
        ∀ e ∈ (main w0).trace, e.isModernVA = false) :=
  ⟨rfl, rfl, rfl, resolver_variant_by_loopback_flag w0 cfg0 rfl (by decide)⟩

/-- C8 fails as stated: in the run of `wNoPolicyFile` the hostname-policy path
is empty and startup fails on it, yet the policy engine has been constructed,
before the path was tested. -/
theorem policy_engine_built_before_path_check :
    cfgNoPolicyFile.RA.HostnamePolicyFile = "" ∧
    wNoPolicyFile.readJSONFile wNoPolicyFile.configFile = Except.ok cfgNoPolicyFile ∧
    (main wNoPolicyFile).outcome =
      Outcome.failed "" "HostnamePolicyFile must be provided." ∧
    Event.policyNew true ∈ (main wNoPolicyFile).trace ∧
    allBefore Event.isPolicyCtor Event.isHostnameCheck (main wNoPolicyFile).trace = true :=
  ⟨rfl, rfl, by decide, by decide, by decide⟩

/-- C8 (amended): the challenge-type check is performed before any
construction, and the hostname-policy path is tested after the policy engine
is created and before any peer client, resolver, RA core or inbound server
call. When either validation fails, startup does not reach serving and no peer
client, resolver, RA core or inbound server call has been made; when the
challenge check fails, no policy engine has been created either; and whenever
the path test is executed, `policy.New` was called before it. -/
theorem validations_precede_wiring (w : World) (c : Config)
    (hc : w.readJSONFile w.configFile = Except.ok c)
    (hbad : w.checkChallenges c.PA ≠ none ∨ c.RA.HostnamePolicyFile = "") :
    (main w).outcome ≠ Outcome.served ∧
    (∀ e ∈ (main w).trace, e.isPeerCtor = false ∧ e.isResolverCtor = false ∧
      e.isCoreCtor = false ∧ e.isServer = false) ∧
    (w.checkChallenges c.PA ≠ none → ∀ e ∈ (main w).trace, e.isPolicyCtor = false) ∧
    ((∃ e ∈ (main w).trace, e.isHostnameCheck = true) →
      allBefore Event.isPolicyCtor Event.isHostnameCheck (main w).trace = true) := by
  have hch : w.checkChallenges c.PA ≠ none →
      (main w).outcome.isServed = false ∧
      (main w).trace.all (fun e => !e.isWiring && !e.isPolicyCtor) = true := fun hne =>
    challenges_invalid_facts w (fun c2 hc2 => by
      have hcc : c = c2 := Except.ok.inj (hc.symm.trans hc2)
      rw [← hcc]; exact hne)
  have hhp : c.RA.HostnamePolicyFile = "" →
      (main w).outcome.isServed = false ∧
      (main w).trace.all (fun e => !e.isWiring) = true := fun he =>
    let hf := hostname_policy_missing_facts w (fun c2 hc2 => by
      have hcc : c = c2 := Except.ok.inj (hc.symm.trans hc2)
      rw [← hcc]; exact he)
    ⟨hf.1, hf.2.2⟩
  have hall : (main w).outcome.isServed = false ∧
      (main w).trace.all (fun e => !e.isWiring) = true := by
    rcases hbad with hne | he
    · refine ⟨(hch hne).1, List.all_eq_true.mpr fun e hmem => ?_⟩
      have := List.all_eq_true.mp (hch hne).2 e hmem
      simp only [Bool.and_eq_true] at this
      exact this.1
    · exact hhp he
  refine ⟨ne_served_of_isServed hall.1, no_wiring_of_all hall.2, fun hne e hmem => ?_, ?_⟩
  · have := List.all_eq_true.mp (hch hne).2 e hmem
    simp only [Bool.and_eq_true, Bool.not_eq_true'] at this
    exact this.2
  · rintro ⟨e, hmem, hchk⟩
    rcases policy_engine_before_hostname_check w with hnone | hb
    · have := List.all_eq_true.mp hnone e hmem
      simp [hchk] at this
    · exact hb

/-- Witness of C8 (amended) on the world `wNoPolicyFile`. -/
theorem validations_precede_wiring_witness :
    cfgNoPolicyFile.RA.HostnamePolicyFile = "" ∧
    (main wNoPolicyFile).outcome ≠ Outcome.served :=
  ⟨rfl, (validations_precede_wiring wNoPolicyFile cfgNoPolicyFile rfl (Or.inr rfl)).1⟩

/-- C9 fails as stated: in the run of `wBadTimeout` the configured
`Common.DNSTimeout` does not parse and startup fails on it, yet the Validation,
Certification and Storage client constructors have all been invoked. -/
theorem peers_built_before_timeout_parse :
    wBadTimeout.readJSONFile wBadTimeout.configFile = Except.ok cfgBadTimeout ∧
    wBadTimeout.parseDuration cfgBadTimeout.Common.DNSTimeout =
      Except.error "time: invalid duration" ∧
    (main wBadTimeout).outcome =
      Outcome.failed "Couldn't parse RA DNS timeout" "time: invalid duration" ∧
    Event.newValidationAuthorityClient ⟨"amqp"⟩ true ∈ (main wBadTimeout).trace ∧
    Event.newCertificateAuthorityClient ⟨"amqp"⟩ true ∈ (main wBadTimeout).trace ∧
    Event.newStorageAuthorityClient ⟨"amqp"⟩ true ∈ (main wBadTimeout).trace :=
  ⟨rfl, rfl, by decide, by decide, by decide, by decide⟩

/-- C9 (amended): every configuration error is fatal. An invalid challenge
configuration or an empty hostname-policy path makes startup fail without any
peer client constructor or inbound server call having been made; a
`Common.DNSTimeout` that does not parse makes startup fail without any resolver
constructor or inbound server call having been made (the peer clients are
constructed before the timeout is parsed). -/
theorem config_errors_are_fatal (w : World) (c : Config)
    (hc : w.readJSONFile w.configFile = Except.ok c) :
    ((w.checkChallenges c.PA ≠ none ∨ c.RA.HostnamePolicyFile = "") →
      (main w).outcome ≠ Outcome.served ∧
      ∀ e ∈ (main w).trace, e.isPeerCtor = false ∧ e.isServer = false) ∧
    ((∃ err, w.parseDuration c.Common.DNSTimeout = Except.error err) →
      (main w).outcome ≠ Outcome.served ∧
      ∀ e ∈ (main w).trace, e.isServer = false ∧ e.isResolverCtor = false) := by
  constructor
  · intro hbad
    have hall : (main w).outcome.isServed = false ∧
        (main w).trace.all (fun e => !e.isWiring) = true := by
      rcases hbad with hne | he
      · have hf := challenges_invalid_facts w (fun c2 hc2 => by
          have hcc : c = c2 := Except.ok.inj (hc.symm.trans hc2)
          rw [← hcc]; exact hne)
        refine ⟨hf.1, List.all_eq_true.mpr fun e hmem => ?_⟩
        have := List.all_eq_true.mp hf.2 e hmem
        simp only [Bool.and_eq_true] at this
        exact this.1
      · have hf := hostname_policy_missing_facts w (fun c2 hc2 => by
          have hcc : c = c2 := Except.ok.inj (hc.symm.trans hc2)
          rw [← hcc]; exact he)
        exact ⟨hf.1, hf.2.2⟩
    exact ⟨ne_served_of_isServed hall.1, fun e hmem =>
      ⟨(no_wiring_of_all hall.2 e hmem).1, (no_wiring_of_all hall.2 e hmem).2.2.2⟩⟩
  · rintro ⟨err, herr⟩
    have hf := timeout_invalid_facts w (fun c2 hc2 => by
      have hcc : c = c2 := Except.ok.inj (hc.symm.trans hc2)
      rw [← hcc, herr]; rfl)
    refine ⟨ne_served_of_isServed hf.1, fun e hmem => ?_⟩
    have := List.all_eq_true.mp hf.2 e hmem
    simpa using this

/-- Witness of C9 (amended) on the world `wBadTimeout`. -/
theorem config_errors_are_fatal_witness :
    (∃ err, wBadTimeout.parseDuration cfgBadTimeout.Common.DNSTimeout = Except.error err) ∧
    (main wBadTimeout).outcome ≠ Outcome.served :=
  ⟨⟨"time: invalid duration", rfl⟩,
    ((config_errors_are_fatal wBadTimeout cfgBadTimeout rfl).2
      ⟨"time: invalid duration", rfl⟩).1⟩

/-- C10: the ceiling given to `rpc.NewAmqpRPCServer` is the configured
`RA.MaxConcurrentRPCServerRequests`, unchanged, for every value; the server is
created once; the server the RA core is registered with and the server that is
started are the one that call returned, and the handle registered is the one
`ra.NewRegistrationAuthorityImpl` returned. -/
theorem concurrency_ceiling_exact (w : World) (c : Config)
    (hc : w.readJSONFile w.configFile = Except.ok c)
    (amqp : AMQPConfig) (m : Int) (ok : Bool)
    (h : Event.newAmqpRPCServer amqp m ok ∈ (main w).trace) :
    m = c.RA.MaxConcurrentRPCServerRequests ∧ amqp = c.RA.AMQP ∧
    ((main w).trace.filter Event.isServerCtor).length = 1 ∧
    (∀ ras rai b, Event.newRegistrationAuthorityServer ras rai b ∈ (main w).trace →
      w.newAmqpRPCServer c.RA.AMQP c.RA.MaxConcurrentRPCServerRequests (statsOf w c)
        (loggerOf w c) = Except.ok ras ∧ rai.id = raiIdOf w c) ∧
    (∀ ras b, Event.start ras b ∈ (main w).trace →
      w.newAmqpRPCServer c.RA.AMQP c.RA.MaxConcurrentRPCServerRequests (statsOf w c)
        (loggerOf w c) = Except.ok ras ∧
      ∃ rai, Event.newRegistrationAuthorityServer ras rai true ∈ (main w).trace ∧
        rai.id = raiIdOf w c) := by
  obtain ⟨hm, ha, -, hone⟩ := server_ctor_facts w c hc amqp m ok h
  refine ⟨hm, ha, hone, fun ras rai b hreg => ?_, fun ras b hst => ?_⟩
  · obtain ⟨-, -, -, -, -, hid, hras, -⟩ := register_call_facts w c hc ras rai b hreg
    exact ⟨hras, hid⟩
  · obtain ⟨hras, hreg, -⟩ := start_call_facts w c hc ras b hst
    exact ⟨hras, hreg⟩

/-- Witness of C10 on the world `w0`, whose configured ceiling is 16. -/
theorem concurrency_ceiling_exact_witness :
    Event.newAmqpRPCServer ⟨"amqp"⟩ 16 true ∈ (main w0).trace ∧
    (16 : Int) = cfg0.RA.MaxConcurrentRPCServerRequests ∧
    ((main w0).trace.filter Event.isServerCtor).length = 1 :=
  ⟨by decide, (concurrency_ceiling_exact w0 cfg0 rfl ⟨"amqp"⟩ 16 true (by decide)).1,
    (concurrency_ceiling_exact w0 cfg0 rfl ⟨"amqp"⟩ 16 true (by decide)).2.2.1⟩


end BoulderRA
